import Mathlib

set_option maxHeartbeats 1000000
set_option maxRecDepth 4096

namespace LS

/-- JSON values, as returned by the vendor API (`response.json()`) and serialized by
`json.dumps`.  Numbers are modelled as integers; no verified property depends on
numeric formatting. -/
inductive Json where
  | null : Json
  | bool : Bool → Json
  | num : Int → Json
  | str : String → Json
  | arr : List Json → Json
  | obj : List (String × Json) → Json

/-- Lower-case hexadecimal digit, used for \uXXXX escapes. -/
def hexDigit (n : Nat) : Char :=
  if n < 10 then Char.ofNat (48 + n) else Char.ofNat (87 + n)

/-- A \uXXXX escape sequence for a code unit. -/
def uEscape (n : Nat) : String :=
  String.mk ['\\', 'u', hexDigit (n / 4096 % 16), hexDigit (n / 256 % 16),
             hexDigit (n / 16 % 16), hexDigit (n % 16)]

/-- Escaping of one character as json.dumps (ensure_ascii default) performs it. -/
def escapeChar (c : Char) : String :=
  if c.toNat = 34 then String.mk ['\\', '\"']
  else if c.toNat = 92 then String.mk ['\\', '\\']
  else if c.toNat = 10 then String.mk ['\\', 'n']
  else if c.toNat = 9 then String.mk ['\\', 't']
  else if c.toNat = 13 then String.mk ['\\', 'r']
  else if c.toNat = 8 then String.mk ['\\', 'b']
  else if c.toNat = 12 then String.mk ['\\', 'f']
  else if c.toNat < 32 then uEscape c.toNat
  else if c.toNat < 127 then String.mk [c]
  else if c.toNat < 65536 then uEscape c.toNat
  else uEscape (55296 + (c.toNat - 65536) / 1024) ++ uEscape (56320 + (c.toNat - 65536) % 1024)

/-- A JSON string literal with quotes and escapes. -/
def jsonEscape (s : String) : String :=
  "\"" ++ String.join (s.toList.map escapeChar) ++ "\""

/-- Indentation: n spaces. -/
def spaces (n : Nat) : String :=
  String.mk (List.replicate n (' '))

mutual

/-- Serialization of a JSON value in the style of Python json.dumps(..., indent=2),
at enclosing indentation level ind. -/
def dumpsVal (ind : Nat) : Json → String
  | Json.null => "null"
  | Json.bool b => if b then ("true") else ("false")
  | Json.num n => toString n
  | Json.str s => jsonEscape s
  | Json.arr xs =>
      match xs with
      | [] => "[]"
      | x :: rest => "[\n" ++ dumpsItems (ind + 2) (x :: rest) ++ "\n" ++ spaces ind ++ "]"
  | Json.obj kvs =>
      match kvs with
      | [] => "\x7b\x7d"
      | kv :: rest => "\x7b\n" ++ dumpsMembers (ind + 2) (kv :: rest) ++ "\n" ++ spaces ind ++ "\x7d"

/-- Comma-and-newline separated array items, each at indentation ind. -/
def dumpsItems (ind : Nat) : List Json → String
  | [] => ""
  | [x] => spaces ind ++ dumpsVal ind x
  | x :: y :: rest => spaces ind ++ dumpsVal ind x ++ ",\n" ++ dumpsItems ind (y :: rest)

/-- Comma-and-newline separated object members, each at indentation ind. -/
def dumpsMembers (ind : Nat) : List (String × Json) → String
  | [] => ""
  | [(k, v)] => spaces ind ++ jsonEscape k ++ ": " ++ dumpsVal ind v
  | (k, v) :: m :: rest =>
      spaces ind ++ jsonEscape k ++ ": " ++ dumpsVal ind v ++ ",\n" ++ dumpsMembers ind (m :: rest)

end

/-- json.dumps(result, indent=2), the success formatting every tool applies. -/
def jsonDumps (j : Json) : String := dumpsVal 0 j

/-- The two error kinds the client layer raises: FileNotFoundError(f"File not found: ...")
from upload validation, and Exception(f"API request failed: ...") wrapping every
httpx.HTTPError in make_request. -/
inductive ClientError where
  | fileNotFound : String → ClientError
  | requestFailed : String → ClientError

/-- str(e) for each client error, as seen by the tool layer's except-clause. -/
def ClientError.message : ClientError → String
  | ClientError.fileNotFound p => "File not found: " ++ p
  | ClientError.requestFailed m => "API request failed: " ++ m

/-- A query-parameter value: the Python dict values passed to httpx are strings,
ints or bools. -/
inductive ParamValue where
  | s : String → ParamValue
  | i : Int → ParamValue
  | b : Bool → ParamValue
deriving DecidableEq

/-- One HTTP request as assembled by the client: URL, method, query parameters,
multipart file parts (field name, file name, raw bytes), form fields, and an
optional JSON body. -/
structure HttpRequest where
  url : String
  method : String
  params : List (String × ParamValue)
  fileParts : List (String × String × List Nat)
  formData : List (String × String)
  jsonBody : Option Json

/-- Outcome of one HTTP exchange: a transport-level failure (connection error,
timeout, ...) or a response with a status code and a JSON body. -/
inductive HttpOutcome where
  | transportError : String → HttpOutcome
  | response : Nat → Json → HttpOutcome

/-- The network environment: what the vendor/transport does with each request. -/
abbrev Net := HttpRequest → HttpOutcome

/-- Observable effects of one client operation, in order: a Path.exists check,
a file read, or the HTTP request going out on the wire. -/
inductive Event where
  | checkExists : String → Bool → Event
  | readFile : String → Event
  | sendRequest : HttpRequest → Event

/-- The local filesystem visible to the server: existing paths with their bytes. -/
abbrev FileSystem := List (String × List Nat)

/-- Path(p).exists(), modelled as exact-path lookup. -/
def FileSystem.pathExists (fs : FileSystem) (p : String) : Bool :=
  (fs.lookup p).isSome

/-- The bytes aiofiles reads from an existing path. -/
def FileSystem.readBytes (fs : FileSystem) (p : String) : List Nat :=
  (fs.lookup p).getD []

/-- Path(p).name: the base filename of a POSIX-style path. -/
def baseName (p : String) : String :=
  (p.splitOn ("/")).getLastD p

/-- response.raise_for_status() succeeds exactly on 2xx codes. -/
def statusIsSuccess (code : Nat) : Bool :=
  decide (200 ≤ code ∧ code < 300)

/-- The message of the httpx.HTTPStatusError raised for a non-2xx response; its exact
text is transport detail, modelled abstractly from the status code. -/
def statusMessage (code : Nat) : String :=
  "HTTP status error " ++ toString code

/-- What make_request's try/except turns an HTTP outcome into: the parsed JSON body on
2xx, and the single wrapped requestFailed kind on every httpx.HTTPError (transport
failure or raise_for_status). -/
def interpretOutcome (o : HttpOutcome) : Except ClientError Json :=
  match o with
  | HttpOutcome.transportError m => Except.error (ClientError.requestFailed m)
  | HttpOutcome.response code body =>
      if statusIsSuccess code then Except.ok body
      else Except.error (ClientError.requestFailed (statusMessage code))

/-- Connection configuration held by the client. -/
structure LatentsenseConfig where
  api_key : String
  project_id : String
  base_url : String

/-- Python truthiness of an optional string: None and the empty string are falsy. -/
def pyTruthyStr : Option String → Bool
  | none => false
  | some s => s != ""

/-- Python truthiness of an optional list: None and the empty list are falsy. -/
def pyTruthyList : Option (List String) → Bool
  | none => false
  | some l => !l.isEmpty

/-- Python truthiness of an optional dict: None and the empty dict are falsy. -/
def pyTruthyObj : Option (List (String × Json)) → Bool
  | none => false
  | some g => !g.isEmpty

namespace LatentsenseClient

/-- The HttpRequest one _make_request call assembles from its arguments
(url = f"{base_url}{endpoint}" plus the forwarded kwargs). -/
def mkReq (cfg : LatentsenseConfig) (endpoint method : String)
    (params : List (String × ParamValue)) (fileParts : List (String × String × List Nat))
    (formData : List (String × String)) (jsonBody : Option Json) : HttpRequest :=
  { url := cfg.base_url ++ endpoint, method := method, params := params,
    fileParts := fileParts, formData := formData, jsonBody := jsonBody }

/-- Embeds LatentsenseClient._make_request: build the URL from the configured base and
the endpoint, issue the request, return the parsed JSON on success, and wrap any
httpx error in the uniform "API request failed" exception. -/
def make_request (cfg : LatentsenseConfig) (net : Net) (endpoint : String) (method : String)
    (params : List (String × ParamValue)) (fileParts : List (String × String × List Nat))
    (formData : List (String × String)) (jsonBody : Option Json) :
    List Event × Except ClientError Json :=
  ([Event.sendRequest (mkReq cfg endpoint method params fileParts formData jsonBody)],
   interpretOutcome (net (mkReq cfg endpoint method params fileParts formData jsonBody)))

/-- The params dict assembled by LatentsenseClient.get_project_runs; each `if x:` in the
source includes the key only when the Python value is truthy.  `descending is not None`
always holds for a bool argument, so that key is always included. -/
def get_project_runs_params (filter_cog_name filter_user_id filter_api_key_id : Option String)
    (page rows_per_page : Int) (sort_by : String) (descending : Bool) :
    List (String × ParamValue) :=
  (if pyTruthyStr filter_cog_name = true
    then [(("filterCogName" : String), ParamValue.s (filter_cog_name.getD ("")))] else []) ++
  (if pyTruthyStr filter_user_id = true
    then [(("filterUserId" : String), ParamValue.s (filter_user_id.getD ("")))] else []) ++
  (if pyTruthyStr filter_api_key_id = true
    then [(("filterApiKeyId" : String), ParamValue.s (filter_api_key_id.getD ("")))] else []) ++
  (if page ≠ 0 then [(("page" : String), ParamValue.i page)] else []) ++
  (if rows_per_page ≠ 0 then [(("rowsPerPage" : String), ParamValue.i rows_per_page)] else []) ++
  (if sort_by ≠ "" then [(("sortBy" : String), ParamValue.s sort_by)] else []) ++
  [(("descending" : String), ParamValue.b descending)]

/-- Embeds LatentsenseClient.get_project_runs. -/
def get_project_runs (cfg : LatentsenseConfig) (net : Net)
    (filter_cog_name filter_user_id filter_api_key_id : Option String)
    (page rows_per_page : Int) (sort_by : String) (descending : Bool) :
    List Event × Except ClientError Json :=
  make_request cfg net ("/api/runs/project/" ++ cfg.project_id) ("GET")
    (get_project_runs_params filter_cog_name filter_user_id filter_api_key_id
      page rows_per_page sort_by descending)
    [] [] none

/-- Embeds LatentsenseClient.get_run_results. -/
def get_run_results (cfg : LatentsenseConfig) (net : Net) (run_id : String) :
    List Event × Except ClientError Json :=
  make_request cfg net ("/api/runs/" ++ run_id ++ "/results") ("GET") [] [] [] none

/-- The first validation loop of _upload_files over the primary file list: the trace of
exists-checks performed and the first missing path, if any. -/
def check_files (fs : FileSystem) : List String → List Event × Option String
  | [] => ([], none)
  | p :: rest =>
      if fs.pathExists p then
        let r := check_files fs rest
        (Event.checkExists p true :: r.1, r.2)
      else
        ([Event.checkExists p false], some p)

/-- The second validation loop of _upload_files over additional_files values; a falsy
(empty) path is skipped, mirroring `if file_path and not Path(file_path).exists()`. -/
def check_additional (fs : FileSystem) : List (String × String) → List Event × Option String
  | [] => ([], none)
  | (_, p) :: rest =>
      if p = "" then check_additional fs rest
      else if fs.pathExists p then
        let r := check_additional fs rest
        (Event.checkExists p true :: r.1, r.2)
      else
        ([Event.checkExists p false], some p)

/-- The read loop of _upload_files over the primary files: each file becomes one
multipart part under field name "files". -/
def read_main (fs : FileSystem) : List String → List Event × List (String × String × List Nat)
  | [] => ([], [])
  | p :: rest =>
      let r := read_main fs rest
      (Event.readFile p :: r.1, (("files" : String), baseName p, fs.readBytes p) :: r.2)

/-- The read loop of _upload_files over additional_files: each truthy path becomes one
part under its field name; a falsy path is skipped, mirroring `if file_path:`. -/
def read_additional (fs : FileSystem) :
    List (String × String) → List Event × List (String × String × List Nat)
  | [] => ([], [])
  | (field, p) :: rest =>
      if p = "" then read_additional fs rest
      else
        let r := read_additional fs rest
        (Event.readFile p :: r.1, (field, baseName p, fs.readBytes p) :: r.2)

/-- Embeds LatentsenseClient._upload_files: validate every declared path, then read all
files into multipart parts, then POST the request with the form data. -/
def upload_files (cfg : LatentsenseConfig) (fs : FileSystem) (net : Net) (endpoint : String)
    (files : List String) (additional_files : List (String × String))
    (form_data : List (String × String)) : List Event × Except ClientError Json :=
  let c1 := check_files fs files
  match c1.2 with
  | some p => (c1.1, Except.error (ClientError.fileNotFound p))
  | none =>
    let c2 := check_additional fs additional_files
    match c2.2 with
    | some p => (c1.1 ++ c2.1, Except.error (ClientError.fileNotFound p))
    | none =>
      let r1 := read_main fs files
      let r2 := read_additional fs additional_files
      let m := make_request cfg net endpoint ("POST") [] (r1.2 ++ r2.2) form_data none
      (c1.1 ++ c2.1 ++ r1.1 ++ r2.1 ++ m.1, m.2)

/-- Embeds LatentsenseClient.redact_pii. -/
def redact_pii (cfg : LatentsenseConfig) (fs : FileSystem) (net : Net) (files : List String) :
    List Event × Except ClientError Json :=
  upload_files cfg fs net ("/" ++ cfg.project_id ++ "/redact-pii") files [] []

/-- str(cutoff): Python float stringification, abstracted to the Rat printer; no
verified property depends on its exact text. -/
def floatStr (c : Rat) : String := toString c

/-- Embeds LatentsenseClient.redact_relevance. -/
def redact_relevance (cfg : LatentsenseConfig) (fs : FileSystem) (net : Net)
    (files : List String) (relevance_term_file : String) (cutoff : Rat) :
    List Event × Except ClientError Json :=
  upload_files cfg fs net ("/" ++ cfg.project_id ++ "/redact-relevance") files
    [(("relevance_term" : String), relevance_term_file)]
    [(("cutoff" : String), floatStr cutoff)]

/-- Embeds LatentsenseClient.extract_relationships. -/
def extract_relationships (cfg : LatentsenseConfig) (fs : FileSystem) (net : Net)
    (files : List String) (claim_concepts_file : String) :
    List Event × Except ClientError Json :=
  upload_files cfg fs net ("/" ++ cfg.project_id ++ "/relationships-from-premises") files
    [(("claim_concepts" : String), claim_concepts_file)] []

/-- The interleaved per-file loop of create_knowledge_graph: each file's existence is
checked immediately before its contents are read, failing on the first missing file. -/
def check_and_read (fs : FileSystem) (field : String) :
    List String → List Event × Except String (List (String × String × List Nat))
  | [] => ([], Except.ok [])
  | p :: rest =>
      if fs.pathExists p then
        let r := check_and_read fs field rest
        (Event.checkExists p true :: Event.readFile p :: r.1,
          match r.2 with
          | Except.ok parts => Except.ok ((field, baseName p, fs.readBytes p) :: parts)
          | Except.error q => Except.error q)
      else
        ([Event.checkExists p false], Except.error p)

/-- The `if files2:` block of create_knowledge_graph: when the second set is truthy it is
check-then-read per file like the primary set, otherwise nothing happens. -/
def files2_pass (fs : FileSystem) (files2 : Option (List String)) :
    List Event × Except String (List (String × String × List Nat)) :=
  if pyTruthyList files2 = true then check_and_read fs ("files2") (files2.getD [])
  else ([], Except.ok [])

/-- The concepts block of create_knowledge_graph: a truthy concepts_file is included only
when it also exists (`if concepts_file and Path(concepts_file).exists():`); a truthy but
missing concepts_file is silently skipped, producing no part and no error. -/
def concepts_pass (fs : FileSystem) (concepts_file : Option String) :
    List Event × List (String × String × List Nat) :=
  let cf := concepts_file.getD ""
  if pyTruthyStr concepts_file = true then
    if fs.pathExists cf then
      ([Event.checkExists cf true, Event.readFile cf],
       [(("concepts" : String), baseName cf, fs.readBytes cf)])
    else ([Event.checkExists cf false], [])
  else ([], [])

/-- The form-data dict of create_knowledge_graph: truthy files1_name/files2_name become
form fields. -/
def kg_form_data (files1_name files2_name : Option String) : List (String × String) :=
  (if pyTruthyStr files1_name = true
    then [(("files1_name" : String), files1_name.getD (""))] else []) ++
  (if pyTruthyStr files2_name = true
    then [(("files2_name" : String), files2_name.getD (""))] else [])

/-- Embeds LatentsenseClient.create_knowledge_graph: primary files and (when truthy) the
second set are check-then-read per file; the concepts file and the form fields follow
files2_pass / concepts_pass / kg_form_data; then one POST goes out. -/
def create_knowledge_graph (cfg : LatentsenseConfig) (fs : FileSystem) (net : Net)
    (files : List String) (files2 : Option (List String)) (concepts_file : Option String)
    (files1_name files2_name : Option String) : List Event × Except ClientError Json :=
  let r1 := check_and_read fs ("files") files
  match r1.2 with
  | Except.error p => (r1.1, Except.error (ClientError.fileNotFound p))
  | Except.ok parts1 =>
    let r2 := files2_pass fs files2
    match r2.2 with
    | Except.error p => (r1.1 ++ r2.1, Except.error (ClientError.fileNotFound p))
    | Except.ok parts2 =>
      let r3 := concepts_pass fs concepts_file
      let m := make_request cfg net ("/" ++ cfg.project_id ++ "/reasoner-x") ("POST") []
        (parts1 ++ parts2 ++ r3.2) (kg_form_data files1_name files2_name) none
      (r1.1 ++ r2.1 ++ r3.1 ++ m.1, m.2)

/-- Embeds LatentsenseClient.get_rex_message. -/
def get_rex_message (cfg : LatentsenseConfig) (net : Net) (run_id : String) :
    List Event × Except ClientError Json :=
  make_request cfg net ("/api/chat/" ++ cfg.project_id ++ "/message_rex") ("GET")
    [(("run_id" : String), ParamValue.s run_id)] [] [] none

/-- Embeds LatentsenseClient.send_rex_message: query params message and run_id always;
the graph is sent as the JSON body only when truthy (`if graph:`). -/
def send_rex_message (cfg : LatentsenseConfig) (net : Net) (message run_id : String)
    (graph : Option (List (String × Json))) : List Event × Except ClientError Json :=
  let params := [(("message" : String), ParamValue.s message),
                 (("run_id" : String), ParamValue.s run_id)]
  if pyTruthyObj graph = true then
    make_request cfg net ("/api/chat/" ++ cfg.project_id ++ "/message_rex") ("POST")
      params [] [] (some (Json.obj (graph.getD [])))
  else
    make_request cfg net ("/api/chat/" ++ cfg.project_id ++ "/message_rex") ("POST")
      params [] [] none

end LatentsenseClient

namespace Tool

/-- The normalization every tool applies to the client outcome: json.dumps(result,
indent=2) on success; f"Error: {str(e)}" for every caught client exception. -/
def toolResult (r : Except ClientError Json) : String :=
  match r with
  | Except.ok j => jsonDumps j
  | Except.error e => "Error: " ++ e.message

/-- The valid_cog_names list in the get_project_runs tool. -/
def valid_cog_names : List String :=
  ["deidentification", "relationships", "ai_authorship_detection", "knowledge_graph"]

/-- The valid_sort_by list in the get_project_runs tool. -/
def valid_sort_by : List String := ["time", "cost"]

/-- repr() of a plain Python string, as an f-string renders list elements. -/
def pyStrRepr (s : String) : String := "\x27" ++ s ++ "\x27"

/-- str() of a Python list of strings, as an f-string renders it. -/
def pyListRepr (xs : List String) : String :=
  "[" ++ String.intercalate (", ") (xs.map pyStrRepr) ++ "]"

/-- Embeds the get_project_runs tool: validate filter_cog_name (when truthy) and sort_by
before any client call, else delegate and format. -/
def get_project_runs (cfg : LatentsenseConfig) (net : Net)
    (filter_cog_name filter_user_id filter_api_key_id : Option String)
    (page rows_per_page : Int) (sort_by : String) (descending : Bool) :
    List Event × String :=
  if pyTruthyStr filter_cog_name = true ∧ filter_cog_name.getD ("") ∉ valid_cog_names then
    ([], "Error: filter_cog_name must be one of " ++ pyListRepr valid_cog_names)
  else if sort_by ∉ valid_sort_by then
    ([], "Error: sort_by must be one of " ++ pyListRepr valid_sort_by)
  else
    let r := LatentsenseClient.get_project_runs cfg net filter_cog_name filter_user_id
      filter_api_key_id page rows_per_page sort_by descending
    (r.1, toolResult r.2)

/-- Embeds the get_run_results tool. -/
def get_run_results (cfg : LatentsenseConfig) (net : Net) (run_id : String) :
    List Event × String :=
  let r := LatentsenseClient.get_run_results cfg net run_id
  (r.1, toolResult r.2)

/-- Embeds the redact_pii tool. -/
def redact_pii (cfg : LatentsenseConfig) (fs : FileSystem) (net : Net)
    (files : List String) : List Event × String :=
  let r := LatentsenseClient.redact_pii cfg fs net files
  (r.1, toolResult r.2)

/-- Embeds the redact_relevance tool: reject a cutoff outside [0, 1] before any client
call (`if not 0 <= cutoff <= 1:`), else delegate and format. -/
def redact_relevance (cfg : LatentsenseConfig) (fs : FileSystem) (net : Net)
    (files : List String) (relevance_term_file : String) (cutoff : Rat) :
    List Event × String :=
  if ¬(0 ≤ cutoff ∧ cutoff ≤ 1) then
    ([], "Error: cutoff must be a number between 0 and 1")
  else
    let r := LatentsenseClient.redact_relevance cfg fs net files relevance_term_file cutoff
    (r.1, toolResult r.2)

/-- Embeds the extract_relationships tool. -/
def extract_relationships (cfg : LatentsenseConfig) (fs : FileSystem) (net : Net)
    (files : List String) (claim_concepts_file : String) : List Event × String :=
  let r := LatentsenseClient.extract_relationships cfg fs net files claim_concepts_file
  (r.1, toolResult r.2)

/-- Declared default of the tool argument files1_name. -/
def files1_name_default : String := "set_1"

/-- Declared default of the tool argument files2_name. -/
def files2_name_default : String := "set_2"

/-- Embeds the create_knowledge_graph tool: no validation of its own; files1_name and
files2_name arrive as plain strings (defaults "set_1"/"set_2") and are passed through. -/
def create_knowledge_graph (cfg : LatentsenseConfig) (fs : FileSystem) (net : Net)
    (files : List String) (files2 : Option (List String)) (concepts_file : Option String)
    (files1_name files2_name : String) : List Event × String :=
  let r := LatentsenseClient.create_knowledge_graph cfg fs net files files2 concepts_file
    (some files1_name) (some files2_name)
  (r.1, toolResult r.2)

/-- Embeds the get_rex_message tool. -/
def get_rex_message (cfg : LatentsenseConfig) (net : Net) (run_id : String) :
    List Event × String :=
  let r := LatentsenseClient.get_rex_message cfg net run_id
  (r.1, toolResult r.2)

/-- Embeds the send_rex_message tool. -/
def send_rex_message (cfg : LatentsenseConfig) (net : Net) (message run_id : String)
    (graph : Option (List (String × Json))) : List Event × String :=
  let r := LatentsenseClient.send_rex_message cfg net message run_id graph
  (r.1, toolResult r.2)

end Tool

/-- Event classifier: an existence check. -/
def isCheck : Event → Bool
  | Event.checkExists _ _ => true
  | _ => false

/-- Event classifier: a file read. -/
def isRead : Event → Bool
  | Event.readFile _ => true
  | _ => false

/-- Event classifier: the HTTP request going out. -/
def isSend : Event → Bool
  | Event.sendRequest _ => true
  | _ => false

/-- Phase of an event: validation 0, file read 1, network send 2. -/
def phase : Event → Nat
  | Event.checkExists _ _ => 0
  | Event.readFile _ => 1
  | Event.sendRequest _ => 2

/-- Trace discipline claimed by the spec: all existence checks precede all file reads,
which precede the HTTP send. -/
def phaseOrdered (tr : List Event) : Prop :=
  List.Sorted (· ≤ ·) (tr.map phase)

/-- The sends form a suffix of the trace: no file activity after a request goes out. -/
def sendsLast (tr : List Event) : Prop :=
  ∃ a b, tr = a ++ b ∧ (∀ e ∈ a, isSend e = false) ∧ (∀ e ∈ b, isSend e = true)

/-- No HTTP request was issued during the trace. -/
def noSend (tr : List Event) : Bool :=
  tr.all (fun e => !(isSend e))

/-- A configuration fixture for concrete witnesses. -/
def cfgEx : LatentsenseConfig :=
  { api_key := "k", project_id := "p", base_url := "https://controller.latentsense.com" }

/-- A filesystem fixture: a.txt exists, missing.txt does not. -/
def fsEx : FileSystem := [(("a.txt" : String), [104, 105])]

/-- A network fixture: every request succeeds with an empty JSON object. -/
def netEx : Net := fun _ => HttpOutcome.response 200 (Json.obj [])

lemma isSend_eq_false_of_phase_le_one {e : Event} (h : phase e ≤ 1) : isSend e = false := by
  cases e <;> first | rfl | simp [phase] at h

lemma noSend_iff {tr : List Event} : noSend tr = true ↔ ∀ e ∈ tr, isSend e = false := by
  simp [noSend, List.all_eq_true]

lemma noSend_of_phase {tr : List Event} (h : ∀ e ∈ tr, phase e ≤ 1) : noSend tr = true :=
  noSend_iff.mpr (fun e he => isSend_eq_false_of_phase_le_one (h e he))

lemma noSend_append {t1 t2 : List Event} : noSend (t1 ++ t2) = (noSend t1 && noSend t2) :=
  List.all_append

lemma sorted_const (c : Nat) : ∀ l : List Nat, (∀ x ∈ l, x = c) → List.Sorted (· ≤ ·) l := by
  intro l
  induction l with
  | nil => intro _; exact List.sorted_nil
  | cons a t ih =>
      intro h
      rw [List.sorted_cons]
      refine ⟨fun b hb => ?_, ih (fun x hx => h x (List.mem_cons_of_mem _ hx))⟩
      rw [h a (List.mem_cons_self _ _), h b (List.mem_cons_of_mem _ hb)]

lemma sorted_le_blocks (c : Nat) {l1 l2 : List Nat}
    (h1 : ∀ x ∈ l1, x ≤ c) (h2 : ∀ x ∈ l2, c ≤ x)
    (s1 : List.Sorted (· ≤ ·) l1) (s2 : List.Sorted (· ≤ ·) l2) :
    List.Sorted (· ≤ ·) (l1 ++ l2) := by
  exact List.pairwise_append.2 ⟨s1, s2, fun a ha b hb => le_trans (h1 a ha) (h2 b hb)⟩

lemma phaseOrdered_blocks {a b c : List Event}
    (ha : ∀ e ∈ a, phase e = 0) (hb : ∀ e ∈ b, phase e = 1) (hc : ∀ e ∈ c, phase e = 2) :
    phaseOrdered (a ++ b ++ c) := by
  have ma : ∀ x ∈ a.map phase, x = 0 := by
    intro x hx; rcases List.mem_map.1 hx with ⟨e, he, rfl⟩; exact ha e he
  have mb : ∀ x ∈ b.map phase, x = 1 := by
    intro x hx; rcases List.mem_map.1 hx with ⟨e, he, rfl⟩; exact hb e he
  have mc : ∀ x ∈ c.map phase, x = 2 := by
    intro x hx; rcases List.mem_map.1 hx with ⟨e, he, rfl⟩; exact hc e he
  unfold phaseOrdered
  rw [List.map_append, List.map_append]
  apply sorted_le_blocks 1
  · intro x hx
    rcases List.mem_append.1 hx with h | h
    · have := ma x h; omega
    · have := mb x h; omega
  · intro x hx; have := mc x hx; omega
  · apply sorted_le_blocks 0
    · intro x hx; have := ma x hx; omega
    · intro x hx; have := mb x hx; omega
    · exact sorted_const 0 _ ma
    · exact sorted_const 1 _ mb
  · exact sorted_const 2 _ mc

namespace LatentsenseClient

lemma check_files_phase (fs : FileSystem) (ps : List String) :
    ∀ e ∈ (check_files fs ps).1, phase e = 0 := by
  induction ps with
  | nil => simp [check_files]
  | cons p rest ih =>
      by_cases h : fs.pathExists p = true
      · simp only [check_files, h, if_true]
        intro e he
        rcases List.mem_cons.1 he with rfl | he'
        · rfl
        · exact ih e he'
      · simp only [check_files, if_neg h]
        intro e he
        rcases List.mem_cons.1 he with rfl | he'
        · rfl
        · cases he'

lemma check_files_eq_none (fs : FileSystem) (ps : List String) :
    (check_files fs ps).2 = none ↔ ∀ p ∈ ps, fs.pathExists p = true := by
  induction ps with
  | nil => simp [check_files]
  | cons p rest ih =>
      by_cases h : fs.pathExists p = true
      · simp [check_files, h, ih]
      · simp [check_files, if_neg h, h]

lemma check_files_eq_some (fs : FileSystem) (ps : List String) (q : String)
    (h : (check_files fs ps).2 = some q) : q ∈ ps ∧ fs.pathExists q = false := by
  induction ps with
  | nil => simp [check_files] at h
  | cons p rest ih =>
      by_cases hp : fs.pathExists p = true
      · simp only [check_files, hp, if_true] at h
        rcases ih h with ⟨h1, h2⟩
        exact ⟨List.mem_cons_of_mem _ h1, h2⟩
      · simp only [check_files, if_neg hp, Option.some.injEq] at h
        subst h
        exact ⟨List.mem_cons_self _ _, by simpa using hp⟩

lemma check_files_unique (fs : FileSystem) (ps : List String) (p : String)
    (hmem : p ∈ ps) (hmiss : fs.pathExists p = false)
    (hothers : ∀ q ∈ ps, q ≠ p → fs.pathExists q = true) :
    (check_files fs ps).2 = some p := by
  induction ps with
  | nil => cases hmem
  | cons a rest ih =>
      by_cases hap : a = p
      · subst hap
        simp [check_files, hmiss]
      · have ha : fs.pathExists a = true := hothers a (List.mem_cons_self _ _) hap
        have hmem' : p ∈ rest := by
          rcases List.mem_cons.1 hmem with h | h
          · exact absurd h.symm hap
          · exact h
        simp only [check_files, ha, if_true]
        exact ih hmem' (fun q hq hqp => hothers q (List.mem_cons_of_mem _ hq) hqp)

lemma check_additional_phase (fs : FileSystem) (afs : List (String × String)) :
    ∀ e ∈ (check_additional fs afs).1, phase e = 0 := by
  induction afs with
  | nil => simp [check_additional]
  | cons kv rest ih =>
      obtain ⟨f, p⟩ := kv
      by_cases h0 : p = ""
      · simpa [check_additional, h0] using ih
      · by_cases h : fs.pathExists p = true
        · simp only [check_additional, if_neg h0, h, if_true]
          intro e he
          rcases List.mem_cons.1 he with rfl | he'
          · rfl
          · exact ih e he'
        · simp only [check_additional, if_neg h0, if_neg h]
          intro e he
          rcases List.mem_cons.1 he with rfl | he'
          · rfl
          · cases he'

lemma check_additional_eq_none (fs : FileSystem) (afs : List (String × String)) :
    (check_additional fs afs).2 = none ↔
      ∀ kv ∈ afs, kv.2 ≠ "" → fs.pathExists kv.2 = true := by
  induction afs with
  | nil => simp [check_additional]
  | cons kv rest ih =>
      obtain ⟨f, p⟩ := kv
      by_cases h0 : p = ""
      · simp [check_additional, h0, ih]
      · by_cases h : fs.pathExists p = true
        · simp [check_additional, if_neg h0, h, ih, h0]
        · simp [check_additional, if_neg h0, if_neg h, h0, h]

lemma check_additional_eq_some (fs : FileSystem) (afs : List (String × String)) (q : String)
    (h : (check_additional fs afs).2 = some q) :
    q ≠ "" ∧ fs.pathExists q = false ∧ ∃ kv ∈ afs, kv.2 = q := by
  induction afs with
  | nil => simp [check_additional] at h
  | cons kv rest ih =>
      obtain ⟨f, p⟩ := kv
      by_cases h0 : p = ""
      · simp only [check_additional, h0, if_true] at h
        · rcases ih (by simpa [h0] using h) with ⟨h1, h2, kv', hkv', hq⟩
          exact ⟨h1, h2, kv', List.mem_cons_of_mem _ hkv', hq⟩
      · by_cases hp : fs.pathExists p = true
        · simp only [check_additional, if_neg h0, hp, if_true] at h
          rcases ih h with ⟨h1, h2, kv', hkv', hq⟩
          exact ⟨h1, h2, kv', List.mem_cons_of_mem _ hkv', hq⟩
        · simp only [check_additional, if_neg h0, if_neg hp, Option.some.injEq] at h
          subst h
          exact ⟨h0, by simpa using hp, (f, p), List.mem_cons_self _ _, rfl⟩

lemma read_main_phase (fs : FileSystem) (ps : List String) :
    ∀ e ∈ (read_main fs ps).1, phase e = 1 := by
  induction ps with
  | nil => simp [read_main]
  | cons p rest ih =>
      simp only [read_main]
      intro e he
      rcases List.mem_cons.1 he with rfl | he'
      · rfl
      · exact ih e he'

lemma read_main_parts (fs : FileSystem) (ps : List String) :
    (read_main fs ps).2 = ps.map (fun p => (("files" : String), baseName p, fs.readBytes p)) := by
  induction ps with
  | nil => simp [read_main]
  | cons p rest ih => simp [read_main, ih]

lemma read_additional_phase (fs : FileSystem) (afs : List (String × String)) :
    ∀ e ∈ (read_additional fs afs).1, phase e = 1 := by
  induction afs with
  | nil => simp [read_additional]
  | cons kv rest ih =>
      obtain ⟨f, p⟩ := kv
      by_cases h0 : p = ""
      · simpa [read_additional, h0] using ih
      · simp only [read_additional, if_neg h0]
        intro e he
        rcases List.mem_cons.1 he with rfl | he'
        · rfl
        · exact ih e he'

lemma check_and_read_phase (fs : FileSystem) (fld : String) (ps : List String) :
    ∀ e ∈ (check_and_read fs fld ps).1, phase e ≤ 1 := by
  induction ps with
  | nil => simp [check_and_read]
  | cons p rest ih =>
      by_cases h : fs.pathExists p = true
      · simp only [check_and_read, h, if_true]
        intro e he
        rcases List.mem_cons.1 he with rfl | he'
        · simp [phase]
        · rcases List.mem_cons.1 he' with rfl | he''
          · simp [phase]
          · exact ih e he''
      · simp only [check_and_read, if_neg h]
        intro e he
        rcases List.mem_cons.1 he with rfl | he'
        · simp [phase]
        · cases he'

lemma check_and_read_ok_of_all (fs : FileSystem) (fld : String) (ps : List String)
    (h : ∀ p ∈ ps, fs.pathExists p = true) :
    (check_and_read fs fld ps).2 =
      Except.ok (ps.map (fun p => (fld, baseName p, fs.readBytes p))) := by
  induction ps with
  | nil => simp [check_and_read]
  | cons p rest ih =>
      have hp : fs.pathExists p = true := h p (List.mem_cons_self _ _)
      have hrest := ih (fun q hq => h q (List.mem_cons_of_mem _ hq))
      simp [check_and_read, hp, hrest]

lemma check_and_read_ok_mem (fs : FileSystem) (fld : String) (ps : List String)
    (parts : List (String × String × List Nat))
    (h : (check_and_read fs fld ps).2 = Except.ok parts) :
    ∀ p ∈ ps, fs.pathExists p = true := by
  induction ps generalizing parts with
  | nil => simp
  | cons p rest ih =>
      by_cases hp : fs.pathExists p = true
      · simp only [check_and_read, hp, if_true] at h
        intro q hq
        rcases List.mem_cons.1 hq with rfl | hq'
        · exact hp
        · rcases hr : (check_and_read fs fld rest).2 with q' | parts'
          · rw [hr] at h; cases h
          · exact ih parts' hr q hq'
      · simp only [check_and_read, if_neg hp] at h
        cases h

lemma check_and_read_err (fs : FileSystem) (fld : String) (ps : List String) (q : String)
    (h : (check_and_read fs fld ps).2 = Except.error q) :
    q ∈ ps ∧ fs.pathExists q = false := by
  induction ps with
  | nil => simp [check_and_read] at h
  | cons p rest ih =>
      by_cases hp : fs.pathExists p = true
      · simp only [check_and_read, hp, if_true] at h
        rcases hr : (check_and_read fs fld rest).2 with q' | parts'
        · rw [hr] at h
          cases h
          rcases ih hr with ⟨h1, h2⟩
          exact ⟨List.mem_cons_of_mem _ h1, h2⟩
        · rw [hr] at h; cases h
      · simp only [check_and_read, if_neg hp, Except.error.injEq] at h
        subst h
        exact ⟨List.mem_cons_self _ _, by simpa using hp⟩

lemma check_and_read_unique (fs : FileSystem) (fld : String) (ps : List String) (p : String)
    (hmem : p ∈ ps) (hmiss : fs.pathExists p = false)
    (hothers : ∀ q ∈ ps, q ≠ p → fs.pathExists q = true) :
    (check_and_read fs fld ps).2 = Except.error p := by
  induction ps with
  | nil => cases hmem
  | cons a rest ih =>
      by_cases hap : a = p
      · subst hap
        simp [check_and_read, hmiss]
      · have ha : fs.pathExists a = true := hothers a (List.mem_cons_self _ _) hap
        have hmem' : p ∈ rest := by
          rcases List.mem_cons.1 hmem with h | h
          · exact absurd h.symm hap
          · exact h
        have hrest := ih hmem' (fun q hq hqp => hothers q (List.mem_cons_of_mem _ hq) hqp)
        simp [check_and_read, ha, hrest]

/-- The request _make_request assembles for get_project_runs. -/
def gprReq (cfg : LatentsenseConfig)
    (filter_cog_name filter_user_id filter_api_key_id : Option String)
    (page rows_per_page : Int) (sort_by : String) (descending : Bool) : HttpRequest :=
  { url := cfg.base_url ++ ("/api/runs/project/" ++ cfg.project_id), method := "GET",
    params := get_project_runs_params filter_cog_name filter_user_id filter_api_key_id
      page rows_per_page sort_by descending,
    fileParts := [], formData := [], jsonBody := none }

lemma get_project_runs_eq (cfg : LatentsenseConfig) (net : Net)
    (fcn fui fak : Option String) (page rpp : Int) (sb : String) (d : Bool) :
    get_project_runs cfg net fcn fui fak page rpp sb d =
      ([Event.sendRequest (gprReq cfg fcn fui fak page rpp sb d)],
       interpretOutcome (net (gprReq cfg fcn fui fak page rpp sb d))) := rfl

/-- The request _make_request assembles for an _upload_files call. -/
def uploadReq (cfg : LatentsenseConfig) (ep : String)
    (parts : List (String × String × List Nat)) (fd : List (String × String)) : HttpRequest :=
  { url := cfg.base_url ++ ep, method := "POST", params := [], fileParts := parts,
    formData := fd, jsonBody := none }

lemma upload_files_err1 (cfg : LatentsenseConfig) (fs : FileSystem) (net : Net) (ep : String)
    (files : List String) (afs : List (String × String)) (fd : List (String × String))
    (q : String) (h : (check_files fs files).2 = some q) :
    upload_files cfg fs net ep files afs fd =
      ((check_files fs files).1, Except.error (ClientError.fileNotFound q)) := by
  simp [upload_files, h]

lemma upload_files_err2 (cfg : LatentsenseConfig) (fs : FileSystem) (net : Net) (ep : String)
    (files : List String) (afs : List (String × String)) (fd : List (String × String))
    (q : String) (h1 : (check_files fs files).2 = none)
    (h2 : (check_additional fs afs).2 = some q) :
    upload_files cfg fs net ep files afs fd =
      ((check_files fs files).1 ++ (check_additional fs afs).1,
       Except.error (ClientError.fileNotFound q)) := by
  simp [upload_files, h1, h2]

lemma upload_files_ok (cfg : LatentsenseConfig) (fs : FileSystem) (net : Net) (ep : String)
    (files : List String) (afs : List (String × String)) (fd : List (String × String))
    (h1 : (check_files fs files).2 = none) (h2 : (check_additional fs afs).2 = none) :
    upload_files cfg fs net ep files afs fd =
      ((check_files fs files).1 ++ (check_additional fs afs).1 ++ (read_main fs files).1 ++
        (read_additional fs afs).1 ++
        [Event.sendRequest (uploadReq cfg ep ((read_main fs files).2 ++ (read_additional fs afs).2) fd)],
       interpretOutcome
         (net (uploadReq cfg ep ((read_main fs files).2 ++ (read_additional fs afs).2) fd))) := by
  simp [upload_files, h1, h2, make_request, mkReq, uploadReq]

/-- The request _make_request assembles for create_knowledge_graph. -/
def ckgReq (cfg : LatentsenseConfig) (parts : List (String × String × List Nat))
    (fd : List (String × String)) : HttpRequest :=
  { url := cfg.base_url ++ ("/" ++ cfg.project_id ++ "/reasoner-x"), method := "POST",
    params := [], fileParts := parts, formData := fd, jsonBody := none }

lemma ckg_err1 (cfg : LatentsenseConfig) (fs : FileSystem) (net : Net) (files : List String)
    (files2 : Option (List String)) (cf f1 f2 : Option String) (q : String)
    (h : (check_and_read fs ("files") files).2 = Except.error q) :
    create_knowledge_graph cfg fs net files files2 cf f1 f2 =
      ((check_and_read fs ("files") files).1, Except.error (ClientError.fileNotFound q)) := by
  simp [create_knowledge_graph, h]

lemma ckg_err2 (cfg : LatentsenseConfig) (fs : FileSystem) (net : Net) (files : List String)
    (files2 : Option (List String)) (cf f1 f2 : Option String) (q : String)
    (parts1 : List (String × String × List Nat))
    (h1 : (check_and_read fs ("files") files).2 = Except.ok parts1)
    (h2 : (files2_pass fs files2).2 = Except.error q) :
    create_knowledge_graph cfg fs net files files2 cf f1 f2 =
      ((check_and_read fs ("files") files).1 ++ (files2_pass fs files2).1,
       Except.error (ClientError.fileNotFound q)) := by
  simp [create_knowledge_graph, h1, h2]

lemma ckg_ok (cfg : LatentsenseConfig) (fs : FileSystem) (net : Net) (files : List String)
    (files2 : Option (List String)) (cf f1 f2 : Option String)
    (parts1 parts2 : List (String × String × List Nat))
    (h1 : (check_and_read fs ("files") files).2 = Except.ok parts1)
    (h2 : (files2_pass fs files2).2 = Except.ok parts2) :
    create_knowledge_graph cfg fs net files files2 cf f1 f2 =
      ((check_and_read fs ("files") files).1 ++ (files2_pass fs files2).1 ++
        (concepts_pass fs cf).1 ++
        [Event.sendRequest
          (ckgReq cfg (parts1 ++ parts2 ++ (concepts_pass fs cf).2) (kg_form_data f1 f2))],
       interpretOutcome
         (net (ckgReq cfg (parts1 ++ parts2 ++ (concepts_pass fs cf).2) (kg_form_data f1 f2)))) := by
  simp [create_knowledge_graph, h1, h2, make_request, mkReq, ckgReq]

lemma files2_pass_phase (fs : FileSystem) (files2 : Option (List String)) :
    ∀ e ∈ (files2_pass fs files2).1, phase e ≤ 1 := by
  by_cases h : pyTruthyList files2 = true
  · simpa [files2_pass, h] using check_and_read_phase fs ("files2") (files2.getD [])
  · simp [files2_pass, h]

lemma concepts_pass_phase (fs : FileSystem) (cf : Option String) :
    ∀ e ∈ (concepts_pass fs cf).1, phase e ≤ 1 := by
  by_cases h : pyTruthyStr cf = true
  · by_cases hx : fs.pathExists (cf.getD "") = true
    · simp [concepts_pass, h, hx, phase]
    · simp only [concepts_pass, h, if_true, if_neg hx]
      intro e he
      rcases List.mem_cons.1 he with rfl | he'
      · simp [phase]
      · cases he'
  · simp [concepts_pass, h]

/-- The request _make_request assembles for send_rex_message. -/
def rexReq (cfg : LatentsenseConfig) (message run_id : String) (body : Option Json) :
    HttpRequest :=
  { url := cfg.base_url ++ ("/api/chat/" ++ cfg.project_id ++ "/message_rex"),
    method := "POST",
    params := [(("message" : String), ParamValue.s message),
               (("run_id" : String), ParamValue.s run_id)],
    fileParts := [], formData := [], jsonBody := body }

lemma send_rex_message_eq (cfg : LatentsenseConfig) (net : Net) (message run_id : String)
    (graph : Option (List (String × Json))) :
    send_rex_message cfg net message run_id graph =
      ([Event.sendRequest (rexReq cfg message run_id
          (if pyTruthyObj graph = true then some (Json.obj (graph.getD [])) else none))],
       interpretOutcome (net (rexReq cfg message run_id
          (if pyTruthyObj graph = true then some (Json.obj (graph.getD [])) else none)))) := by
  by_cases h : pyTruthyObj graph = true <;>
    simp [send_rex_message, h, make_request, mkReq, rexReq]

end LatentsenseClient

/-- What every tool invocation returns: the indent-formatted JSON of some payload, or a
string prefixed "Error: ". -/
def jsonOrError (s : String) : Prop :=
  (∃ j : Json, s = jsonDumps j) ∨ (∃ m : String, s = "Error: " ++ m)

lemma toolResult_jsonOrError (r : Except ClientError Json) : jsonOrError (Tool.toolResult r) := by
  cases r with
  | ok j => exact Or.inl ⟨j, rfl⟩
  | error e => exact Or.inr ⟨e.message, rfl⟩

/-- C1: every invocation of each of the eight tools, whatever the arguments and whatever
the filesystem and network do, returns a string that is either the indent-formatted JSON
serialization of the vendor payload (`json.dumps(result, indent=2)`) or a string starting
with "Error: "; no exception escapes the tool boundary (the tool functions are total). -/
theorem c1_tools_return_json_or_error_string :
    (∀ cfg net fcn fui fak page rpp sb d,
      jsonOrError (Tool.get_project_runs cfg net fcn fui fak page rpp sb d).2) ∧
    (∀ cfg net rid, jsonOrError (Tool.get_run_results cfg net rid).2) ∧
    (∀ cfg fs net files, jsonOrError (Tool.redact_pii cfg fs net files).2) ∧
    (∀ cfg fs net files rtf cutoff,
      jsonOrError (Tool.redact_relevance cfg fs net files rtf cutoff).2) ∧
    (∀ cfg fs net files ccf, jsonOrError (Tool.extract_relationships cfg fs net files ccf).2) ∧
    (∀ cfg fs net files files2 cf f1 f2,
      jsonOrError (Tool.create_knowledge_graph cfg fs net files files2 cf f1 f2).2) ∧
    (∀ cfg net rid, jsonOrError (Tool.get_rex_message cfg net rid).2) ∧
    (∀ cfg net msg rid graph, jsonOrError (Tool.send_rex_message cfg net msg rid graph).2) := by
  refine ⟨?_, ?_, ?_, ?_, ?_, ?_, ?_, ?_⟩
  · intro cfg net fcn fui fak page rpp sb d
    by_cases h1 : pyTruthyStr fcn = true ∧ fcn.getD ("") ∉ Tool.valid_cog_names
    · refine Or.inr ⟨"filter_cog_name must be one of " ++ Tool.pyListRepr Tool.valid_cog_names, ?_⟩
      simp only [Tool.get_project_runs]
      rw [if_pos h1]
      decide
    · by_cases h2 : sb ∉ Tool.valid_sort_by
      · refine Or.inr ⟨"sort_by must be one of " ++ Tool.pyListRepr Tool.valid_sort_by, ?_⟩
        simp only [Tool.get_project_runs]
        rw [if_neg h1, if_pos h2]
        decide
      · simpa [Tool.get_project_runs, h1, h2] using
          toolResult_jsonOrError (LatentsenseClient.get_project_runs cfg net fcn fui fak
            page rpp sb d).2
  · intro cfg net rid
    simpa [Tool.get_run_results] using
      toolResult_jsonOrError (LatentsenseClient.get_run_results cfg net rid).2
  · intro cfg fs net files
    simpa [Tool.redact_pii] using
      toolResult_jsonOrError (LatentsenseClient.redact_pii cfg fs net files).2
  · intro cfg fs net files rtf cutoff
    by_cases h : ¬(0 ≤ cutoff ∧ cutoff ≤ 1)
    · refine Or.inr ⟨"cutoff must be a number between 0 and 1", ?_⟩
      simp only [Tool.redact_relevance]
      rw [if_pos h]
      decide
    · simpa [Tool.redact_relevance, h] using
        toolResult_jsonOrError (LatentsenseClient.redact_relevance cfg fs net files rtf cutoff).2
  · intro cfg fs net files ccf
    simpa [Tool.extract_relationships] using
      toolResult_jsonOrError (LatentsenseClient.extract_relationships cfg fs net files ccf).2
  · intro cfg fs net files files2 cf f1 f2
    simpa [Tool.create_knowledge_graph] using
      toolResult_jsonOrError (LatentsenseClient.create_knowledge_graph cfg fs net files files2
        cf (some f1) (some f2)).2
  · intro cfg net rid
    simpa [Tool.get_rex_message] using
      toolResult_jsonOrError (LatentsenseClient.get_rex_message cfg net rid).2
  · intro cfg net msg rid graph
    simpa [Tool.send_rex_message] using
      toolResult_jsonOrError (LatentsenseClient.send_rex_message cfg net msg rid graph).2

/-- C4 counterexample: with filter_cog_name = "bogus" and sort_by = "bad" (both invalid),
the tool returns the filter_cog_name error, not an error string listing {time, cost}; so
the claim's sort_by clause fails as universally stated. -/
theorem c4_counterexample :
    (("bad" : String) ∉ Tool.valid_sort_by) ∧
    (Tool.get_project_runs cfgEx netEx (some ("bogus")) none none 1 50 ("bad") true).2 ≠
      "Error: sort_by must be one of " ++ Tool.pyListRepr Tool.valid_sort_by ∧
    (Tool.get_project_runs cfgEx netEx (some ("bogus")) none none 1 50 ("bad") true).2 =
      "Error: filter_cog_name must be one of " ++ Tool.pyListRepr Tool.valid_cog_names := by
  exact ⟨by decide, by decide, by decide⟩

/-- C4 (amended): a truthy filter_cog_name outside the four valid cog names makes the
tool return the error listing that set, with no HTTP request; an invalid sort_by makes
the tool return the error listing {time, cost} provided the filter_cog_name check passed
(absent, empty, or valid filter); and whenever sort_by is invalid no HTTP request is
issued in any case. -/
theorem c4_get_project_runs_validation (cfg : LatentsenseConfig) (net : Net)
    (fcn fui fak : Option String) (page rpp : Int) (sb : String) (d : Bool) :
    (pyTruthyStr fcn = true → fcn.getD ("") ∉ Tool.valid_cog_names →
      Tool.get_project_runs cfg net fcn fui fak page rpp sb d =
        ([], "Error: filter_cog_name must be one of " ++ Tool.pyListRepr Tool.valid_cog_names)) ∧
    (sb ∉ Tool.valid_sort_by →
      (¬ pyTruthyStr fcn = true ∨ fcn.getD ("") ∈ Tool.valid_cog_names) →
      Tool.get_project_runs cfg net fcn fui fak page rpp sb d =
        ([], "Error: sort_by must be one of " ++ Tool.pyListRepr Tool.valid_sort_by)) ∧
    (sb ∉ Tool.valid_sort_by →
      (Tool.get_project_runs cfg net fcn fui fak page rpp sb d).1 = []) := by
  refine ⟨?_, ?_, ?_⟩
  · intro h1 h2
    simp only [Tool.get_project_runs]
    rw [if_pos ⟨h1, h2⟩]
  · intro hs hf
    have h1 : ¬(pyTruthyStr fcn = true ∧ fcn.getD ("") ∉ Tool.valid_cog_names) := by
      rcases hf with h | h
      · exact fun hc => h hc.1
      · exact fun hc => hc.2 h
    simp only [Tool.get_project_runs]
    rw [if_neg h1, if_pos hs]
  · intro hs
    by_cases h1 : pyTruthyStr fcn = true ∧ fcn.getD ("") ∉ Tool.valid_cog_names
    · simp only [Tool.get_project_runs]
      rw [if_pos h1]
    · simp only [Tool.get_project_runs]
      rw [if_neg h1, if_pos hs]

/-- Witness for c4_get_project_runs_validation at concrete inputs, discharging each
hypothesis. -/
theorem c4_witness :
    (("invalid" : String) ∉ Tool.valid_sort_by) ∧
    Tool.get_project_runs cfgEx netEx none none none 1 50 ("invalid") true =
      ([], "Error: sort_by must be one of " ++ Tool.pyListRepr Tool.valid_sort_by) ∧
    Tool.get_project_runs cfgEx netEx (some ("bogus")) none none 1 50 ("time") true =
      ([], "Error: filter_cog_name must be one of " ++ Tool.pyListRepr Tool.valid_cog_names) := by
  refine ⟨by decide, ?_, ?_⟩
  · exact (c4_get_project_runs_validation cfgEx netEx none none none 1 50 ("invalid") true).2.1
      (by decide) (Or.inl (by decide))
  · exact (c4_get_project_runs_validation cfgEx netEx (some ("bogus")) none none 1 50
      ("time") true).1 (by decide) (by decide)

/-- C5: the redact_relevance tool rejects a cutoff outside the closed interval [0, 1]
with a descriptive error before any filesystem or network activity (its trace is empty),
and accepts any cutoff in [0, 1] — including exactly 0 and exactly 1 — delegating to the
client unchanged. -/
theorem c5_redact_relevance_cutoff (cfg : LatentsenseConfig) (fs : FileSystem) (net : Net)
    (files : List String) (rtf : String) (cutoff : Rat) :
    (¬(0 ≤ cutoff ∧ cutoff ≤ 1) →
      Tool.redact_relevance cfg fs net files rtf cutoff =
        ([], "Error: cutoff must be a number between 0 and 1")) ∧
    ((0 ≤ cutoff ∧ cutoff ≤ 1) →
      Tool.redact_relevance cfg fs net files rtf cutoff =
        ((LatentsenseClient.redact_relevance cfg fs net files rtf cutoff).1,
         Tool.toolResult (LatentsenseClient.redact_relevance cfg fs net files rtf cutoff).2)) := by
  constructor
  · intro h
    simp only [Tool.redact_relevance]
    rw [if_pos h]
  · intro h
    simp only [Tool.redact_relevance]
    rw [if_neg (not_not_intro h)]

/-- Witness for c5_redact_relevance_cutoff: cutoff 3/2 is rejected with no events;
cutoff 1 is accepted and delegated. -/
theorem c5_witness :
    (¬((0:Rat) ≤ 3/2 ∧ (3:Rat)/2 ≤ 1)) ∧
    Tool.redact_relevance cfgEx fsEx netEx [("a.txt" : String)] ("a.txt") (3/2) =
      ([], "Error: cutoff must be a number between 0 and 1") ∧
    ((0:Rat) ≤ 1 ∧ (1:Rat) ≤ 1) ∧
    Tool.redact_relevance cfgEx fsEx netEx [("a.txt" : String)] ("a.txt") 1 =
      ((LatentsenseClient.redact_relevance cfgEx fsEx netEx [("a.txt")] ("a.txt") 1).1,
       Tool.toolResult (LatentsenseClient.redact_relevance cfgEx fsEx netEx [("a.txt")]
         ("a.txt") 1).2) := by
  refine ⟨by norm_num, ?_, by norm_num, ?_⟩
  · exact (c5_redact_relevance_cutoff cfgEx fsEx netEx [("a.txt")] ("a.txt") (3/2)).1
      (by norm_num)
  · exact (c5_redact_relevance_cutoff cfgEx fsEx netEx [("a.txt")] ("a.txt") 1).2
      (by norm_num)

/-- The shape of every client operation's result: either a fileNotFound failure raised
before any request went out, or exactly the network's interpretation of one request the
operation sent. -/
def clientOutcomeOk (net : Net) (res : List Event × Except ClientError Json) : Prop :=
  (∃ p, res.2 = Except.error (ClientError.fileNotFound p) ∧ noSend res.1 = true) ∨
  (∃ req, Event.sendRequest req ∈ res.1 ∧ res.2 = interpretOutcome (net req))

lemma noSend_append_of {t1 t2 : List Event} (h1 : noSend t1 = true) (h2 : noSend t2 = true) :
    noSend (t1 ++ t2) = true := by
  rw [noSend_append, h1, h2]
  rfl

namespace LatentsenseClient

lemma noSend_check_files (fs : FileSystem) (ps : List String) :
    noSend (check_files fs ps).1 = true :=
  noSend_of_phase (fun e he => by rw [check_files_phase fs ps e he]; omega)

lemma noSend_check_additional (fs : FileSystem) (afs : List (String × String)) :
    noSend (check_additional fs afs).1 = true :=
  noSend_of_phase (fun e he => by rw [check_additional_phase fs afs e he]; omega)

lemma noSend_check_and_read (fs : FileSystem) (fld : String) (ps : List String) :
    noSend (check_and_read fs fld ps).1 = true :=
  noSend_of_phase (check_and_read_phase fs fld ps)

lemma noSend_files2_pass (fs : FileSystem) (files2 : Option (List String)) :
    noSend (files2_pass fs files2).1 = true :=
  noSend_of_phase (files2_pass_phase fs files2)

lemma upload_files_outcome (cfg : LatentsenseConfig) (fs : FileSystem) (net : Net)
    (ep : String) (files : List String) (afs : List (String × String))
    (fd : List (String × String)) :
    clientOutcomeOk net (upload_files cfg fs net ep files afs fd) := by
  rcases h1 : (check_files fs files).2 with _ | q
  · rcases h2 : (check_additional fs afs).2 with _ | q
    · rw [upload_files_ok cfg fs net ep files afs fd h1 h2]
      refine Or.inr ⟨_, ?_, rfl⟩
      simp
    · rw [upload_files_err2 cfg fs net ep files afs fd q h1 h2]
      exact Or.inl ⟨q, rfl,
        noSend_append_of (noSend_check_files fs files) (noSend_check_additional fs afs)⟩
  · rw [upload_files_err1 cfg fs net ep files afs fd q h1]
    exact Or.inl ⟨q, rfl, noSend_check_files fs files⟩

lemma ckg_outcome (cfg : LatentsenseConfig) (fs : FileSystem) (net : Net)
    (files : List String) (files2 : Option (List String)) (cf f1 f2 : Option String) :
    clientOutcomeOk net (create_knowledge_graph cfg fs net files files2 cf f1 f2) := by
  rcases h1 : (check_and_read fs ("files") files).2 with q | parts1
  · rw [ckg_err1 cfg fs net files files2 cf f1 f2 q h1]
    exact Or.inl ⟨q, rfl, noSend_check_and_read fs ("files") files⟩
  · rcases h2 : (files2_pass fs files2).2 with q | parts2
    · rw [ckg_err2 cfg fs net files files2 cf f1 f2 q parts1 h1 h2]
      exact Or.inl ⟨q, rfl,
        noSend_append_of (noSend_check_and_read fs ("files") files)
          (noSend_files2_pass fs files2)⟩
    · rw [ckg_ok cfg fs net files files2 cf f1 f2 parts1 parts2 h1 h2]
      refine Or.inr ⟨_, ?_, rfl⟩
      simp

end LatentsenseClient

/-- C6: for every client operation, on any transport-level error or non-2xx response the
result is the single wrapped requestFailed kind carrying the underlying message ("API
request failed: ..."); on a 2xx response it is the parsed JSON body; and fileNotFound —
raised only before any request is sent — is the only other error kind any client
operation produces. -/
theorem c6_client_failure_semantics :
    (∀ m, (ClientError.requestFailed m).message = "API request failed: " ++ m) ∧
    (∀ p, (ClientError.fileNotFound p).message = "File not found: " ++ p) ∧
    (∀ m, interpretOutcome (HttpOutcome.transportError m) =
      Except.error (ClientError.requestFailed m)) ∧
    (∀ code body, statusIsSuccess code = true →
      interpretOutcome (HttpOutcome.response code body) = Except.ok body) ∧
    (∀ code body, statusIsSuccess code = false →
      interpretOutcome (HttpOutcome.response code body) =
        Except.error (ClientError.requestFailed (statusMessage code))) ∧
    (∀ cfg net fcn fui fak page rpp sb d, clientOutcomeOk net
      (LatentsenseClient.get_project_runs cfg net fcn fui fak page rpp sb d)) ∧
    (∀ cfg net rid, clientOutcomeOk net (LatentsenseClient.get_run_results cfg net rid)) ∧
    (∀ cfg fs net files, clientOutcomeOk net (LatentsenseClient.redact_pii cfg fs net files)) ∧
    (∀ cfg fs net files rtf cutoff, clientOutcomeOk net
      (LatentsenseClient.redact_relevance cfg fs net files rtf cutoff)) ∧
    (∀ cfg fs net files ccf, clientOutcomeOk net
      (LatentsenseClient.extract_relationships cfg fs net files ccf)) ∧
    (∀ cfg fs net files files2 cf f1 f2, clientOutcomeOk net
      (LatentsenseClient.create_knowledge_graph cfg fs net files files2 cf f1 f2)) ∧
    (∀ cfg net rid, clientOutcomeOk net (LatentsenseClient.get_rex_message cfg net rid)) ∧
    (∀ cfg net msg rid graph, clientOutcomeOk net
      (LatentsenseClient.send_rex_message cfg net msg rid graph)) := by
  refine ⟨fun m => rfl, fun p => rfl, fun m => rfl, ?_, ?_, ?_, ?_, ?_, ?_, ?_, ?_, ?_, ?_⟩
  · intro code body h
    simp [interpretOutcome, h]
  · intro code body h
    simp [interpretOutcome, h]
  · intro cfg net fcn fui fak page rpp sb d
    refine Or.inr ⟨_, ?_, rfl⟩
    exact List.mem_cons_self _ _
  · intro cfg net rid
    refine Or.inr ⟨_, ?_, rfl⟩
    exact List.mem_cons_self _ _
  · intro cfg fs net files
    exact LatentsenseClient.upload_files_outcome cfg fs net _ files [] []
  · intro cfg fs net files rtf cutoff
    exact LatentsenseClient.upload_files_outcome cfg fs net _ files _ _
  · intro cfg fs net files ccf
    exact LatentsenseClient.upload_files_outcome cfg fs net _ files _ _
  · intro cfg fs net files files2 cf f1 f2
    exact LatentsenseClient.ckg_outcome cfg fs net files files2 cf f1 f2
  · intro cfg net rid
    refine Or.inr ⟨_, ?_, rfl⟩
    exact List.mem_cons_self _ _
  · intro cfg net msg rid graph
    rw [LatentsenseClient.send_rex_message_eq]
    refine Or.inr ⟨_, ?_, rfl⟩
    exact List.mem_cons_self _ _

lemma phaseOrdered_of_const (c : Nat) {t : List Event} (h : ∀ e ∈ t, phase e = c) :
    phaseOrdered t :=
  sorted_const c _ (fun x hx => by rcases List.mem_map.1 hx with ⟨e, he, rfl⟩; exact h e he)

lemma phaseOrdered_five (c1 c2 r1 r2 : List Event) (req : HttpRequest)
    (h1 : ∀ e ∈ c1, phase e = 0) (h2 : ∀ e ∈ c2, phase e = 0)
    (h3 : ∀ e ∈ r1, phase e = 1) (h4 : ∀ e ∈ r2, phase e = 1) :
    phaseOrdered (c1 ++ c2 ++ r1 ++ r2 ++ [Event.sendRequest req]) := by
  have hc : ∀ e ∈ [Event.sendRequest req], phase e = 2 := by
    intro e he
    rw [List.mem_singleton.1 he]
    rfl
  have h := phaseOrdered_blocks (List.forall_mem_append.2 ⟨h1, h2⟩)
    (List.forall_mem_append.2 ⟨h3, h4⟩) hc
  simp only [phaseOrdered, List.append_assoc] at h ⊢
  exact h

namespace LatentsenseClient

lemma noSend_concepts_pass (fs : FileSystem) (cf : Option String) :
    noSend (concepts_pass fs cf).1 = true :=
  noSend_of_phase (concepts_pass_phase fs cf)

lemma upload_files_phaseOrdered (cfg : LatentsenseConfig) (fs : FileSystem) (net : Net)
    (ep : String) (files : List String) (afs : List (String × String))
    (fd : List (String × String)) :
    phaseOrdered (upload_files cfg fs net ep files afs fd).1 := by
  rcases h1 : (check_files fs files).2 with _ | q
  · rcases h2 : (check_additional fs afs).2 with _ | q
    · rw [upload_files_ok cfg fs net ep files afs fd h1 h2]
      exact phaseOrdered_five _ _ _ _ _ (check_files_phase fs files)
        (check_additional_phase fs afs) (read_main_phase fs files)
        (read_additional_phase fs afs)
    · rw [upload_files_err2 cfg fs net ep files afs fd q h1 h2]
      exact phaseOrdered_of_const 0 (List.forall_mem_append.2
        ⟨check_files_phase fs files, check_additional_phase fs afs⟩)
  · rw [upload_files_err1 cfg fs net ep files afs fd q h1]
    exact phaseOrdered_of_const 0 (check_files_phase fs files)

lemma ckg_sendsLast (cfg : LatentsenseConfig) (fs : FileSystem) (net : Net)
    (files : List String) (files2 : Option (List String)) (cf f1 f2 : Option String) :
    sendsLast (create_knowledge_graph cfg fs net files files2 cf f1 f2).1 := by
  rcases h1 : (check_and_read fs ("files") files).2 with q | parts1
  · rw [ckg_err1 cfg fs net files files2 cf f1 f2 q h1]
    refine ⟨_, [], (List.append_nil _).symm, ?_, by simp⟩
    exact noSend_iff.1 (noSend_check_and_read fs ("files") files)
  · rcases h2 : (files2_pass fs files2).2 with q | parts2
    · rw [ckg_err2 cfg fs net files files2 cf f1 f2 q parts1 h1 h2]
      refine ⟨_, [], (List.append_nil _).symm, ?_, by simp⟩
      exact noSend_iff.1 (noSend_append_of (noSend_check_and_read fs ("files") files)
        (noSend_files2_pass fs files2))
    · rw [ckg_ok cfg fs net files files2 cf f1 f2 parts1 parts2 h1 h2]
      refine ⟨(check_and_read fs ("files") files).1 ++ (files2_pass fs files2).1 ++
        (concepts_pass fs cf).1,
        [Event.sendRequest (ckgReq cfg (parts1 ++ parts2 ++ (concepts_pass fs cf).2)
          (kg_form_data f1 f2))], by simp [List.append_assoc], ?_, by simp [isSend]⟩
      exact noSend_iff.1 (noSend_append_of (noSend_append_of
        (noSend_check_and_read fs ("files") files) (noSend_files2_pass fs files2))
        (noSend_concepts_pass fs cf))

end LatentsenseClient

lemma error_fileNotFound_str (q : String) :
    Tool.toolResult (Except.error (ClientError.fileNotFound q)) =
      "Error: File not found: " ++ q := by
  show "Error: " ++ ("File not found: " ++ q) = "Error: File not found: " ++ q
  rw [← String.append_assoc]
  congr 1

namespace LatentsenseClient

lemma upload_files_missing (cfg : LatentsenseConfig) (fs : FileSystem) (net : Net)
    (ep : String) (files : List String) (afs : List (String × String))
    (fd : List (String × String)) (p : String)
    (hp : p ∈ files ∨ (∃ kv ∈ afs, kv.2 = p ∧ p ≠ ""))
    (hmiss : fs.pathExists p = false) :
    ∃ q, (q ∈ files ∨ (∃ kv ∈ afs, kv.2 = q ∧ q ≠ "")) ∧ fs.pathExists q = false ∧
      (upload_files cfg fs net ep files afs fd).2 =
        Except.error (ClientError.fileNotFound q) ∧
      noSend (upload_files cfg fs net ep files afs fd).1 = true ∧
      ((∀ q2, (q2 ∈ files ∨ (∃ kv ∈ afs, kv.2 = q2 ∧ q2 ≠ "")) → q2 ≠ p →
        fs.pathExists q2 = true) → q = p) := by
  rcases hc1 : (check_files fs files).2 with _ | q
  · have hall := (check_files_eq_none fs files).1 hc1
    rcases hp with hpf | ⟨kv, hkv, hkv2, hne⟩
    · exact absurd (hall p hpf) (by simp [hmiss])
    · rcases hc2 : (check_additional fs afs).2 with _ | q
      · have hall2 := (check_additional_eq_none fs afs).1 hc2
        have h := hall2 kv hkv (by rw [hkv2]; exact hne)
        rw [hkv2] at h
        exact absurd h (by simp [hmiss])
      · have hq := check_additional_eq_some fs afs q hc2
        have hup := upload_files_err2 cfg fs net ep files afs fd q hc1 hc2
        rcases hq.2.2 with ⟨kv', hkv', hkv'2⟩
        refine ⟨q, Or.inr ⟨kv', hkv', hkv'2, hq.1⟩, hq.2.1, by rw [hup], ?_, ?_⟩
        · rw [hup]
          exact noSend_append_of (noSend_check_files fs files)
            (noSend_check_additional fs afs)
        · intro hothers
          by_cases hqp : q = p
          · exact hqp
          · have h := hothers q (Or.inr ⟨kv', hkv', hkv'2, hq.1⟩) hqp
            exact absurd h (by simp [hq.2.1])
  · have hqm := check_files_eq_some fs files q hc1
    have hup := upload_files_err1 cfg fs net ep files afs fd q hc1
    refine ⟨q, Or.inl hqm.1, hqm.2, by rw [hup], ?_, ?_⟩
    · rw [hup]
      exact noSend_check_files fs files
    · intro hothers
      by_cases hqp : q = p
      · exact hqp
      · have h := hothers q (Or.inl hqm.1) hqp
        exact absurd h (by simp [hqm.2])

lemma files2_pass_truthy (fs : FileSystem) (files2 : Option (List String))
    (h : pyTruthyList files2 = true) :
    files2_pass fs files2 = check_and_read fs ("files2") (files2.getD []) := by
  simp [files2_pass, h]

lemma ckg_missing (cfg : LatentsenseConfig) (fs : FileSystem) (net : Net)
    (files : List String) (files2 : Option (List String)) (cf f1 f2 : Option String)
    (p : String)
    (hp : p ∈ files ∨ (pyTruthyList files2 = true ∧ p ∈ files2.getD []))
    (hmiss : fs.pathExists p = false) :
    ∃ q, (q ∈ files ∨ (pyTruthyList files2 = true ∧ q ∈ files2.getD [])) ∧
      fs.pathExists q = false ∧
      (create_knowledge_graph cfg fs net files files2 cf f1 f2).2 =
        Except.error (ClientError.fileNotFound q) ∧
      noSend (create_knowledge_graph cfg fs net files files2 cf f1 f2).1 = true ∧
      ((∀ q2, (q2 ∈ files ∨ (pyTruthyList files2 = true ∧ q2 ∈ files2.getD [])) → q2 ≠ p →
        fs.pathExists q2 = true) → q = p) := by
  rcases hc1 : (check_and_read fs ("files") files).2 with q | parts1
  · have hqm := check_and_read_err fs ("files") files q hc1
    have hck := ckg_err1 cfg fs net files files2 cf f1 f2 q hc1
    refine ⟨q, Or.inl hqm.1, hqm.2, by rw [hck], ?_, ?_⟩
    · rw [hck]
      exact noSend_check_and_read fs ("files") files
    · intro hothers
      by_cases hqp : q = p
      · exact hqp
      · have h := hothers q (Or.inl hqm.1) hqp
        exact absurd h (by simp [hqm.2])
  · have hall := check_and_read_ok_mem fs ("files") files parts1 hc1
    rcases hp with hpf | ⟨htr, hpf2⟩
    · exact absurd (hall p hpf) (by simp [hmiss])
    · rcases hc2 : (check_and_read fs ("files2") (files2.getD [])).2 with q | parts2
      · have hqm := check_and_read_err fs ("files2") (files2.getD []) q hc2
        have hc2' : (files2_pass fs files2).2 = Except.error q := by
          rw [files2_pass_truthy fs files2 htr]
          exact hc2
        have hck := ckg_err2 cfg fs net files files2 cf f1 f2 q parts1 hc1 hc2'
        refine ⟨q, Or.inr ⟨htr, hqm.1⟩, hqm.2, by rw [hck], ?_, ?_⟩
        · rw [hck]
          exact noSend_append_of (noSend_check_and_read fs ("files") files)
            (noSend_files2_pass fs files2)
        · intro hothers
          by_cases hqp : q = p
          · exact hqp
          · have h := hothers q (Or.inr ⟨htr, hqm.1⟩) hqp
            exact absurd h (by simp [hqm.2])
      · have hall2 := check_and_read_ok_mem fs ("files2") (files2.getD []) parts2 hc2
        exact absurd (hall2 p hpf2) (by simp [hmiss])

end LatentsenseClient

/-- Outcome required of an upload tool when declared path p is missing: the tool returns
"Error: File not found: <q>" for some missing declared path q — and q is p itself
whenever every other declared path exists — and no HTTP request is issued. -/
def missingFileOutcome (fs : FileSystem) (declared : String → Prop) (p : String)
    (res : List Event × String) : Prop :=
  (∃ q, declared q ∧ fs.pathExists q = false ∧
    res.2 = "Error: File not found: " ++ q ∧
    ((∀ q2, declared q2 → q2 ≠ p → fs.pathExists q2 = true) → q = p)) ∧
  noSend res.1 = true

/-- C2 counterexample: create_knowledge_graph with an existing primary file and a
nonexistent concepts_file does not return "Error: File not found: missing.txt"; the
missing concepts file is silently skipped and the HTTP request is still issued, so the
claim fails for the concepts_file path. -/
theorem c2_counterexample :
    fsEx.pathExists ("missing.txt") = false ∧
    (Tool.create_knowledge_graph cfgEx fsEx netEx [("a.txt" : String)] none
      (some ("missing.txt")) ("set_1") ("set_2")).2 ≠
      "Error: File not found: missing.txt" ∧
    (Tool.create_knowledge_graph cfgEx fsEx netEx [("a.txt" : String)] none
      (some ("missing.txt")) ("set_1") ("set_2")).1.any isSend = true := by
  exact ⟨by decide, by decide, by decide⟩

/-- C2 (amended): for every upload tool and every declared file path except
create_knowledge_graph's concepts_file — the primary set, the named additional file
field when non-empty, and the truthy second set — a nonexistent path makes the tool
return "Error: File not found: <path>" (naming that path whenever all other declared
files exist) and no HTTP request is issued; for redact_relevance this holds once its
cutoff validation, which runs first, passes.  A nonexistent concepts_file is instead
silently skipped and the request still goes out (see the counterexample). -/
theorem c2_missing_upload_file :
    (∀ cfg fs net files p, p ∈ files → fs.pathExists p = false →
      missingFileOutcome fs (fun q => q ∈ files) p (Tool.redact_pii cfg fs net files)) ∧
    (∀ cfg fs net files rtf cutoff p, (0 ≤ cutoff ∧ cutoff ≤ 1) →
      (p ∈ files ∨ (p = rtf ∧ p ≠ "")) → fs.pathExists p = false →
      missingFileOutcome fs (fun q => q ∈ files ∨ (q = rtf ∧ q ≠ "")) p
        (Tool.redact_relevance cfg fs net files rtf cutoff)) ∧
    (∀ cfg fs net files ccf p, (p ∈ files ∨ (p = ccf ∧ p ≠ "")) →
      fs.pathExists p = false →
      missingFileOutcome fs (fun q => q ∈ files ∨ (q = ccf ∧ q ≠ "")) p
        (Tool.extract_relationships cfg fs net files ccf)) ∧
    (∀ cfg fs net files files2 cf f1 f2 p,
      (p ∈ files ∨ (pyTruthyList files2 = true ∧ p ∈ files2.getD [])) →
      fs.pathExists p = false →
      missingFileOutcome fs
        (fun q => q ∈ files ∨ (pyTruthyList files2 = true ∧ q ∈ files2.getD [])) p
        (Tool.create_knowledge_graph cfg fs net files files2 cf f1 f2)) := by
  refine ⟨?_, ?_, ?_, ?_⟩
  · intro cfg fs net files p hp hmiss
    rcases LatentsenseClient.upload_files_missing cfg fs net
      ("/" ++ cfg.project_id ++ "/redact-pii") files [] [] p (Or.inl hp) hmiss with
      ⟨q, hdecl, hqmiss, heq, hns, huniq⟩
    have hdecl' : q ∈ files := by
      rcases hdecl with h | ⟨kv, hkv, _⟩
      · exact h
      · cases hkv
    refine ⟨⟨q, hdecl', hqmiss, ?_, ?_⟩, hns⟩
    · show Tool.toolResult (LatentsenseClient.redact_pii cfg fs net files).2 = _
      have heq' : (LatentsenseClient.redact_pii cfg fs net files).2 =
          Except.error (ClientError.fileNotFound q) := heq
      rw [heq']
      exact error_fileNotFound_str q
    · intro hothers
      refine huniq ?_
      intro q2 hq2 hq2p
      rcases hq2 with h | ⟨kv, hkv, _⟩
      · exact hothers q2 h hq2p
      · cases hkv
  · intro cfg fs net files rtf cutoff p hcut hp hmiss
    have hp' : p ∈ files ∨ (∃ kv ∈ [(("relevance_term" : String), rtf)], kv.2 = p ∧ p ≠ "") := by
      rcases hp with h | ⟨h1, h2⟩
      · exact Or.inl h
      · exact Or.inr ⟨(("relevance_term" : String), rtf), List.mem_singleton_self _,
          h1.symm, h2⟩
    rcases LatentsenseClient.upload_files_missing cfg fs net
      ("/" ++ cfg.project_id ++ "/redact-relevance") files
      [(("relevance_term" : String), rtf)] [(("cutoff" : String),
      LatentsenseClient.floatStr cutoff)] p hp' hmiss with
      ⟨q, hdecl, hqmiss, heq, hns, huniq⟩
    have hdecl' : q ∈ files ∨ (q = rtf ∧ q ≠ "") := by
      rcases hdecl with h | ⟨kv, hkv, hkv2, hne⟩
      · exact Or.inl h
      · rw [List.mem_singleton.1 hkv] at hkv2
        exact Or.inr ⟨hkv2.symm, hne⟩
    have htool : Tool.redact_relevance cfg fs net files rtf cutoff =
        ((LatentsenseClient.redact_relevance cfg fs net files rtf cutoff).1,
         Tool.toolResult (LatentsenseClient.redact_relevance cfg fs net files rtf cutoff).2) := by
      simp only [Tool.redact_relevance]
      rw [if_neg (not_not_intro hcut)]
    refine ⟨⟨q, hdecl', hqmiss, ?_, ?_⟩, ?_⟩
    · rw [htool]
      have heq' : (LatentsenseClient.redact_relevance cfg fs net files rtf cutoff).2 =
          Except.error (ClientError.fileNotFound q) := heq
      show Tool.toolResult (LatentsenseClient.redact_relevance cfg fs net files rtf cutoff).2 = _
      rw [heq']
      exact error_fileNotFound_str q
    · intro hothers
      refine huniq ?_
      intro q2 hq2 hq2p
      rcases hq2 with h | ⟨kv, hkv, hkv2, hne⟩
      · exact hothers q2 (Or.inl h) hq2p
      · rw [List.mem_singleton.1 hkv] at hkv2
        exact hothers q2 (Or.inr ⟨hkv2.symm, hne⟩) hq2p
    · rw [htool]
      exact hns
  · intro cfg fs net files ccf p hp hmiss
    have hp' : p ∈ files ∨ (∃ kv ∈ [(("claim_concepts" : String), ccf)], kv.2 = p ∧ p ≠ "") := by
      rcases hp with h | ⟨h1, h2⟩
      · exact Or.inl h
      · exact Or.inr ⟨(("claim_concepts" : String), ccf), List.mem_singleton_self _,
          h1.symm, h2⟩
    rcases LatentsenseClient.upload_files_missing cfg fs net
      ("/" ++ cfg.project_id ++ "/relationships-from-premises") files
      [(("claim_concepts" : String), ccf)] [] p hp' hmiss with
      ⟨q, hdecl, hqmiss, heq, hns, huniq⟩
    have hdecl' : q ∈ files ∨ (q = ccf ∧ q ≠ "") := by
      rcases hdecl with h | ⟨kv, hkv, hkv2, hne⟩
      · exact Or.inl h
      · rw [List.mem_singleton.1 hkv] at hkv2
        exact Or.inr ⟨hkv2.symm, hne⟩
    refine ⟨⟨q, hdecl', hqmiss, ?_, ?_⟩, hns⟩
    · show Tool.toolResult (LatentsenseClient.extract_relationships cfg fs net files ccf).2 = _
      have heq' : (LatentsenseClient.extract_relationships cfg fs net files ccf).2 =
          Except.error (ClientError.fileNotFound q) := heq
      rw [heq']
      exact error_fileNotFound_str q
    · intro hothers
      refine huniq ?_
      intro q2 hq2 hq2p
      rcases hq2 with h | ⟨kv, hkv, hkv2, hne⟩
      · exact hothers q2 (Or.inl h) hq2p
      · rw [List.mem_singleton.1 hkv] at hkv2
        exact hothers q2 (Or.inr ⟨hkv2.symm, hne⟩) hq2p
  · intro cfg fs net files files2 cf f1 f2 p hp hmiss
    rcases LatentsenseClient.ckg_missing cfg fs net files files2 cf (some f1) (some f2) p
      hp hmiss with ⟨q, hdecl, hqmiss, heq, hns, huniq⟩
    refine ⟨⟨q, hdecl, hqmiss, ?_, huniq⟩, hns⟩
    show Tool.toolResult (LatentsenseClient.create_knowledge_graph cfg fs net files files2
      cf (some f1) (some f2)).2 = _
    have heq' : (LatentsenseClient.create_knowledge_graph cfg fs net files files2 cf
        (some f1) (some f2)).2 = Except.error (ClientError.fileNotFound q) := heq
    rw [heq']
    exact error_fileNotFound_str q

/-- Witness for c2_missing_upload_file: redact_pii on the single nonexistent path
missing.txt fails fast with the named error and sends nothing. -/
theorem c2_witness :
    (("missing.txt" : String) ∈ [("missing.txt" : String)]) ∧
    fsEx.pathExists ("missing.txt") = false ∧
    missingFileOutcome fsEx (fun q => q ∈ [("missing.txt" : String)]) ("missing.txt")
      (Tool.redact_pii cfgEx fsEx netEx [("missing.txt" : String)]) := by
  refine ⟨by decide, by decide, ?_⟩
  exact c2_missing_upload_file.1 cfgEx fsEx netEx [("missing.txt" : String)]
    ("missing.txt") (by decide) (by decide)

/-- C3 counterexample: calling the create_knowledge_graph tool with files =
["a.txt", "missing.txt"] (a.txt exists, missing.txt does not) reads a.txt before
missing.txt's existence check: the trace is check, read, check, so the claimed
"all existence checks before any read" ordering fails for this upload operation. -/
theorem c3_counterexample :
    ¬ phaseOrdered (Tool.create_knowledge_graph cfgEx fsEx netEx
      [("a.txt" : String), "missing.txt"] none none ("set_1") ("set_2")).1 := by
  unfold phaseOrdered
  decide

/-- C3 (amended): for the three upload tools built on _upload_files (redact_pii,
redact_relevance, extract_relationships), every existence check precedes every file
read and every read precedes the HTTP send; create_knowledge_graph interleaves each
file's check with its read, but its sends still form a suffix of the trace, so the
single request goes out only after every declared file has been checked and read and a
partial upload never occurs. -/
theorem c3_validate_read_send_order :
    (∀ cfg fs net files, phaseOrdered (Tool.redact_pii cfg fs net files).1) ∧
    (∀ cfg fs net files rtf cutoff,
      phaseOrdered (Tool.redact_relevance cfg fs net files rtf cutoff).1) ∧
    (∀ cfg fs net files ccf, phaseOrdered (Tool.extract_relationships cfg fs net files ccf).1) ∧
    (∀ cfg fs net files files2 cf f1 f2,
      sendsLast (Tool.create_knowledge_graph cfg fs net files files2 cf f1 f2).1) := by
  refine ⟨?_, ?_, ?_, ?_⟩
  · intro cfg fs net files
    exact LatentsenseClient.upload_files_phaseOrdered cfg fs net _ files [] []
  · intro cfg fs net files rtf cutoff
    by_cases h : ¬(0 ≤ cutoff ∧ cutoff ≤ 1)
    · simp only [Tool.redact_relevance]
      rw [if_pos h]
      exact List.sorted_nil
    · simp only [Tool.redact_relevance]
      rw [if_neg h]
      exact LatentsenseClient.upload_files_phaseOrdered cfg fs net _ files _ _
  · intro cfg fs net files ccf
    exact LatentsenseClient.upload_files_phaseOrdered cfg fs net _ files _ _
  · intro cfg fs net files files2 cf f1 f2
    exact LatentsenseClient.ckg_sendsLast cfg fs net files files2 cf (some f1) (some f2)

/-- Membership of a key among the query parameters. -/
def keyIn (k : String) (ps : List (String × ParamValue)) : Prop :=
  ∃ v, (k, v) ∈ ps

lemma keyIn_append {k : String} {l1 l2 : List (String × ParamValue)} :
    keyIn k (l1 ++ l2) ↔ keyIn k l1 ∨ keyIn k l2 := by
  simp [keyIn, List.mem_append, exists_or]

lemma keyIn_ite {c : Prop} [Decidable c] {k k' : String} {v' : ParamValue} :
    keyIn k (if c then [(k', v')] else []) ↔ (c ∧ k = k') := by
  by_cases h : c <;> simp [keyIn, h]

lemma keyIn_ite2 {c : Prop} [Decidable c] {k k' : String} {v' : ParamValue} :
    keyIn k (if c then [] else [(k', v')]) ↔ (¬c ∧ k = k') := by
  by_cases h : c <;> simp [keyIn, h]

lemma keyIn_singleton {k k' : String} {v' : ParamValue} :
    keyIn k [(k', v')] ↔ k = k' := by
  simp [keyIn]

/-- C7 counterexample: at the client's declared default argument values (page=1,
rows_per_page=50, sort_by="time", descending=True) — the values a call providing none of
them receives — the query parameters still contain page, rowsPerPage, sortBy and
descending; and a provided-but-empty filter_cog_name is not included.  Inclusion
therefore does not coincide with "provided by the caller". -/
theorem c7_counterexample :
    ((("page" : String), ParamValue.i 1) ∈
      LatentsenseClient.get_project_runs_params none none none 1 50 ("time") true) ∧
    ((("rowsPerPage" : String), ParamValue.i 50) ∈
      LatentsenseClient.get_project_runs_params none none none 1 50 ("time") true) ∧
    ((("sortBy" : String), ParamValue.s ("time")) ∈
      LatentsenseClient.get_project_runs_params none none none 1 50 ("time") true) ∧
    ((("descending" : String), ParamValue.b true) ∈
      LatentsenseClient.get_project_runs_params none none none 1 50 ("time") true) ∧
    (∀ kv ∈ LatentsenseClient.get_project_runs_params (some ("")) none none 1 50
      ("time") true, kv.1 ≠ "filterCogName") := by
  exact ⟨by decide, by decide, by decide, by decide, by decide⟩

/-- C7 (amended): the list-runs client operation sends exactly one GET request whose
query parameters include each field exactly when its Python value is truthy rather than
exactly when provided: the three filters appear iff provided non-empty; page and
rowsPerPage appear iff nonzero (so the defaults 1 and 50 always appear); sortBy appears
iff non-empty (so the default "time" always appears); and descending, a bool that can
never be None, always appears with the caller's value. -/
theorem c7_query_param_inclusion (cfg : LatentsenseConfig) (net : Net)
    (fcn fui fak : Option String) (page rpp : Int) (sb : String) (d : Bool) :
    ∃ req, (LatentsenseClient.get_project_runs cfg net fcn fui fak page rpp sb d).1 =
        [Event.sendRequest req] ∧
      req.params = LatentsenseClient.get_project_runs_params fcn fui fak page rpp sb d ∧
      (keyIn ("filterCogName") req.params ↔ pyTruthyStr fcn = true) ∧
      (keyIn ("filterUserId") req.params ↔ pyTruthyStr fui = true) ∧
      (keyIn ("filterApiKeyId") req.params ↔ pyTruthyStr fak = true) ∧
      (keyIn ("page") req.params ↔ page ≠ 0) ∧
      (keyIn ("rowsPerPage") req.params ↔ rpp ≠ 0) ∧
      (keyIn ("sortBy") req.params ↔ sb ≠ "") ∧
      ((("descending" : String), ParamValue.b d) ∈ req.params) := by
  refine ⟨LatentsenseClient.gprReq cfg fcn fui fak page rpp sb d, rfl, rfl,
    ?_, ?_, ?_, ?_, ?_, ?_, ?_⟩
  · show keyIn _ (LatentsenseClient.get_project_runs_params fcn fui fak page rpp sb d) ↔ _
    simp [LatentsenseClient.get_project_runs_params, keyIn_append, keyIn_ite, keyIn_ite2, keyIn_singleton]
  · show keyIn _ (LatentsenseClient.get_project_runs_params fcn fui fak page rpp sb d) ↔ _
    simp [LatentsenseClient.get_project_runs_params, keyIn_append, keyIn_ite, keyIn_ite2, keyIn_singleton]
  · show keyIn _ (LatentsenseClient.get_project_runs_params fcn fui fak page rpp sb d) ↔ _
    simp [LatentsenseClient.get_project_runs_params, keyIn_append, keyIn_ite, keyIn_ite2, keyIn_singleton]
  · show keyIn _ (LatentsenseClient.get_project_runs_params fcn fui fak page rpp sb d) ↔ _
    simp [LatentsenseClient.get_project_runs_params, keyIn_append, keyIn_ite, keyIn_ite2, keyIn_singleton]
  · show keyIn _ (LatentsenseClient.get_project_runs_params fcn fui fak page rpp sb d) ↔ _
    simp [LatentsenseClient.get_project_runs_params, keyIn_append, keyIn_ite, keyIn_ite2, keyIn_singleton]
  · show keyIn _ (LatentsenseClient.get_project_runs_params fcn fui fak page rpp sb d) ↔ _
    simp [LatentsenseClient.get_project_runs_params, keyIn_append, keyIn_ite, keyIn_ite2, keyIn_singleton]
  · show (("descending" : String), ParamValue.b d) ∈
      LatentsenseClient.get_project_runs_params fcn fui fak page rpp sb d
    simp [LatentsenseClient.get_project_runs_params, List.mem_append]

/-- Witness for c7_query_param_inclusion: at a concrete call with a non-empty filter and
page 0, the filter key appears and the page key does not. -/
theorem c7_witness :
    ∃ req, (LatentsenseClient.get_project_runs cfgEx netEx (some ("knowledge_graph"))
        none none 0 50 ("time") true).1 = [Event.sendRequest req] ∧
      req.params = LatentsenseClient.get_project_runs_params (some ("knowledge_graph"))
        none none 0 50 ("time") true ∧
      (keyIn ("filterCogName") req.params ↔
        pyTruthyStr (some ("knowledge_graph")) = true) ∧
      (keyIn ("filterUserId") req.params ↔ pyTruthyStr none = true) ∧
      (keyIn ("filterApiKeyId") req.params ↔ pyTruthyStr none = true) ∧
      (keyIn ("page") req.params ↔ (0 : Int) ≠ 0) ∧
      (keyIn ("rowsPerPage") req.params ↔ (50 : Int) ≠ 0) ∧
      (keyIn ("sortBy") req.params ↔ ("time" : String) ≠ "") ∧
      ((("descending" : String), ParamValue.b true) ∈ req.params) :=
  c7_query_param_inclusion cfgEx netEx (some ("knowledge_graph")) none none 0 50
    ("time") true

/-- C8 counterexample: send_rex_message with a supplied but empty graph object sends
exactly one request, and that request has no JSON body — a supplied empty graph is not
sent as the body, contrary to the claim's "for every supplied graph object, including an
empty one". -/
theorem c8_counterexample :
    (LatentsenseClient.send_rex_message cfgEx netEx ("hi") ("r1") (some [])).1 =
      [Event.sendRequest (LatentsenseClient.rexReq cfgEx ("hi") ("r1") none)] ∧
    (LatentsenseClient.rexReq cfgEx ("hi") ("r1") none).jsonBody = none := by
  exact ⟨rfl, rfl⟩

/-- C8 (amended): every send_rex_message call sends one POST whose query parameters are
message and run_id; the graph is sent as the JSON body iff it is supplied and non-empty —
a supplied empty graph object, like an absent one, produces a request with no body. -/
theorem c8_send_rex_message_body (cfg : LatentsenseConfig) (net : Net)
    (message run_id : String) (graph : Option (List (String × Json))) :
    ∃ req, (LatentsenseClient.send_rex_message cfg net message run_id graph).1 =
        [Event.sendRequest req] ∧
      req.method = "POST" ∧
      req.params = [(("message" : String), ParamValue.s message),
                    (("run_id" : String), ParamValue.s run_id)] ∧
      req.jsonBody = (if pyTruthyObj graph = true
        then some (Json.obj (graph.getD [])) else none) := by
  refine ⟨LatentsenseClient.rexReq cfg message run_id
    (if pyTruthyObj graph = true then some (Json.obj (graph.getD [])) else none),
    ?_, rfl, rfl, rfl⟩
  rw [LatentsenseClient.send_rex_message_eq]

/-- C9: create_knowledge_graph invoked with only the primary files (files2 = None,
concepts_file = None), all of which exist, issues a request whose multipart file parts
are exactly one part per primary file, each under field name "files" — so no files2
parts and no concepts part. -/
theorem c9_primary_files_only (cfg : LatentsenseConfig) (fs : FileSystem) (net : Net)
    (files : List String) (f1 f2 : String)
    (hex : ∀ p ∈ files, fs.pathExists p = true) :
    ∃ req, Event.sendRequest req ∈
        (Tool.create_knowledge_graph cfg fs net files none none f1 f2).1 ∧
      req.fileParts = files.map (fun p => (("files" : String), baseName p, fs.readBytes p)) ∧
      (∀ part ∈ req.fileParts, part.1 = "files") ∧
      req.fileParts.length = files.length := by
  have h1 := LatentsenseClient.check_and_read_ok_of_all fs ("files") files hex
  have h2 : (LatentsenseClient.files2_pass fs none).2 = Except.ok [] := rfl
  have hck := LatentsenseClient.ckg_ok cfg fs net files none none (some f1) (some f2)
    (files.map (fun p => (("files" : String), baseName p, fs.readBytes p))) [] h1 h2
  have hcp : (LatentsenseClient.concepts_pass fs none).2 = [] := rfl
  refine ⟨LatentsenseClient.ckgReq cfg
    ((files.map (fun p => (("files" : String), baseName p, fs.readBytes p))) ++ [] ++
      (LatentsenseClient.concepts_pass fs none).2)
    (LatentsenseClient.kg_form_data (some f1) (some f2)), ?_, ?_, ?_, ?_⟩
  · show Event.sendRequest _ ∈ (LatentsenseClient.create_knowledge_graph cfg fs net files
      none none (some f1) (some f2)).1
    rw [hck]
    simp
  · show (files.map (fun p => (("files" : String), baseName p, fs.readBytes p))) ++ [] ++
      (LatentsenseClient.concepts_pass fs none).2 = _
    rw [hcp]
    simp
  · intro part hp
    rw [show (LatentsenseClient.ckgReq cfg
        ((files.map (fun p => (("files" : String), baseName p, fs.readBytes p))) ++ [] ++
          (LatentsenseClient.concepts_pass fs none).2)
        (LatentsenseClient.kg_form_data (some f1) (some f2))).fileParts =
        files.map (fun p => (("files" : String), baseName p, fs.readBytes p)) from by
      show (files.map (fun p => (("files" : String), baseName p, fs.readBytes p))) ++ [] ++
        (LatentsenseClient.concepts_pass fs none).2 = _
      rw [hcp]
      simp] at hp
    rcases List.mem_map.1 hp with ⟨p, _, rfl⟩
    rfl
  · rw [show (LatentsenseClient.ckgReq cfg
        ((files.map (fun p => (("files" : String), baseName p, fs.readBytes p))) ++ [] ++
          (LatentsenseClient.concepts_pass fs none).2)
        (LatentsenseClient.kg_form_data (some f1) (some f2))).fileParts =
        files.map (fun p => (("files" : String), baseName p, fs.readBytes p)) from by
      show (files.map (fun p => (("files" : String), baseName p, fs.readBytes p))) ++ [] ++
        (LatentsenseClient.concepts_pass fs none).2 = _
      rw [hcp]
      simp]
    exact List.length_map _ _

/-- Witness for c9_primary_files_only with the one existing file a.txt. -/
theorem c9_witness :
    (∀ p ∈ [("a.txt" : String)], fsEx.pathExists p = true) ∧
    (∃ req, Event.sendRequest req ∈
        (Tool.create_knowledge_graph cfgEx fsEx netEx [("a.txt" : String)] none none
          ("set_1") ("set_2")).1 ∧
      req.fileParts = [("a.txt" : String)].map
        (fun p => (("files" : String), baseName p, fsEx.readBytes p)) ∧
      (∀ part ∈ req.fileParts, part.1 = "files") ∧
      req.fileParts.length = [("a.txt" : String)].length) := by
  exact ⟨by decide, c9_primary_files_only cfgEx fsEx netEx [("a.txt" : String)]
    ("set_1") ("set_2") (by decide)⟩

/-- The form fields a create_knowledge_graph request is expected to carry for tool-level
files1_name/files2_name strings: each present iff the string is non-empty. -/
def expectedKgFormData (f1 f2 : String) : List (String × String) :=
  (if f1 = "" then [] else [(("files1_name" : String), f1)]) ++
  (if f2 = "" then [] else [(("files2_name" : String), f2)])

lemma kg_form_data_some (f1 f2 : String) :
    LatentsenseClient.kg_form_data (some f1) (some f2) = expectedKgFormData f1 f2 := by
  by_cases h1 : f1 = "" <;> by_cases h2 : f2 = "" <;>
    simp [LatentsenseClient.kg_form_data, expectedKgFormData, pyTruthyStr, h1, h2]

lemma all_true_of_noSend {f : Event → Bool} (hf : ∀ e, isSend e = false → f e = true)
    {tr : List Event} (h : noSend tr = true) : tr.all f = true := by
  rw [List.all_eq_true]
  intro e he
  exact hf e (noSend_iff.1 h e he)

/-- C10: every request the create_knowledge_graph tool sends carries form data given
exactly by expectedKgFormData of the tool's files1_name/files2_name arguments; since the
tool defaults are "set_1" and "set_2", a call omitting them still produces both form
fields with those values, and a field is omitted only for an explicitly empty string. -/
theorem c10_kg_form_data_defaults :
    (∀ cfg fs net files files2 cf f1 f2,
      ((Tool.create_knowledge_graph cfg fs net files files2 cf f1 f2).1.all
        (fun e => match e with
          | Event.sendRequest req => decide (req.formData = expectedKgFormData f1 f2)
          | _ => true)) = true) ∧
    expectedKgFormData Tool.files1_name_default Tool.files2_name_default =
      [(("files1_name" : String), "set_1"), (("files2_name" : String), "set_2")] ∧
    expectedKgFormData ("") ("") = [] := by
  refine ⟨?_, by decide, by decide⟩
  intro cfg fs net files files2 cf f1 f2
  have hf : ∀ e, isSend e = false →
      (fun e => match e with
        | Event.sendRequest req => decide (req.formData = expectedKgFormData f1 f2)
        | _ => true) e = true := by
    intro e he
    cases e with
    | checkExists p b => rfl
    | readFile p => rfl
    | sendRequest req => simp [isSend] at he
  show ((LatentsenseClient.create_knowledge_graph cfg fs net files files2 cf
    (some f1) (some f2)).1.all _) = true
  rcases hc1 : (LatentsenseClient.check_and_read fs ("files") files).2 with q | parts1
  · rw [LatentsenseClient.ckg_err1 cfg fs net files files2 cf (some f1) (some f2) q hc1]
    exact all_true_of_noSend hf (LatentsenseClient.noSend_check_and_read fs ("files") files)
  · rcases hc2 : (LatentsenseClient.files2_pass fs files2).2 with q | parts2
    · rw [LatentsenseClient.ckg_err2 cfg fs net files files2 cf (some f1) (some f2) q
        parts1 hc1 hc2]
      exact all_true_of_noSend hf (noSend_append_of
        (LatentsenseClient.noSend_check_and_read fs ("files") files)
        (LatentsenseClient.noSend_files2_pass fs files2))
    · rw [LatentsenseClient.ckg_ok cfg fs net files files2 cf (some f1) (some f2)
        parts1 parts2 hc1 hc2]
      rw [List.all_append, Bool.and_eq_true]
      constructor
      · exact all_true_of_noSend hf (noSend_append_of (noSend_append_of
          (LatentsenseClient.noSend_check_and_read fs ("files") files)
          (LatentsenseClient.noSend_files2_pass fs files2))
          (LatentsenseClient.noSend_concepts_pass fs cf))
      · show (decide ((LatentsenseClient.ckgReq cfg _ (LatentsenseClient.kg_form_data
          (some f1) (some f2))).formData = expectedKgFormData f1 f2) && true) = true
        rw [Bool.and_true]
        rw [decide_eq_true_eq]
        exact kg_form_data_some f1 f2

/-- Witness for c6_client_failure_semantics: the 2xx and non-2xx clauses at the concrete
status codes 200 and 500. -/
theorem c6_witness :
    (statusIsSuccess 200 = true) ∧
    interpretOutcome (HttpOutcome.response 200 (Json.obj [])) = Except.ok (Json.obj []) ∧
    (statusIsSuccess 500 = false) ∧
    interpretOutcome (HttpOutcome.response 500 Json.null) =
      Except.error (ClientError.requestFailed (statusMessage 500)) := by
  refine ⟨by decide, ?_, by decide, ?_⟩
  · exact c6_client_failure_semantics.2.2.2.1 200 (Json.obj []) (by decide)
  · exact c6_client_failure_semantics.2.2.2.2.1 500 Json.null (by decide)

end LS
